import Mathlib

/-!
Verification of the nethack-rs `.des` level compiler.

This file gives a shallow embedding of the compiler's two-stage pipeline
(lexer in `des_lexer.rs`, parser/emitter in `des_parser.rs`) and of the
bytecode decoder's operand unpackers (`lev_reader.rs`), together with
theorems settling the frozen claims about them.

Modelling conventions:
- Rust `String` / `&str` values are modelled as `List Char`; Rust byte
  lengths (`str::len`) are modelled by summing `Char.utf8Size`.
- Rust `i64` / `i16` / `u8` / `u32` values are modelled as `Int` (or `Nat`
  for unsigned counters), with the explicit wrap-around of every `as`
  cast the source performs (`toI16`, `toU8`); i64 arithmetic performed by
  the parser never overflows on the inputs considered.
- Rust `Result` is `Except`; a Rust `panic!` / `.expect` failure in the
  lexer is modelled by the explicit `LexResult.panicked` outcome.
- The `HashMap` symbol table is modelled as an association list; the
  claims never depend on map iteration order.
- The parser's mutually recursive statement productions are driven by an
  explicit fuel argument; the public entry point supplies fuel larger
  than the token count, which is enough because every production consumes
  at least one token before recursing.  Fuel exhaustion is a dedicated
  error value that no verified run reaches.
The embedding covers the statement productions exercised by the claims
(MAZE, LEVEL, FLAGS, MESSAGE, MONSTER, MAP, IF/ELSE, FOR, LOOP, EXIT and
the percent prefix).  Statement keywords outside this fragment are mapped
to a dedicated model-fragment error; no theorem below touches them.
-/

set_option maxRecDepth 8000
set_option synthInstance.maxHeartbeats 1000000

deriving instance DecidableEq for Except

/-- Abbreviation: the character list of a string literal. -/
def lstr (s : String) : List Char := s.data

/-! ## Core bytecode types, from `nethack-types/src/sp_lev.rs` -/

/-- Opcodes for the special level bytecode interpreter
(`enum SpOpcode`, values match C's `enum opcode_defs`). -/
inductive SpOpcode where
  | Null | Message | Monster | Object | Engraving | Room | Subroom | Door
  | Stair | Ladder | Altar | Fountain | Sink | Pool | Trap | Gold | Corridor
  | LevRegion | Drawbridge | MazeWalk | NonDiggable | NonPasswall | Wallify
  | Map | RoomDoor | Region | Mineralize | Cmp | Jmp | Jl | Jle | Jg | Jge
  | Je | Jne | Terrain | ReplaceTerrain | Exit | EndRoom | PopContainer
  | Push | Pop | Rn2 | Dec | Inc | MathAdd | MathSub | MathMul | MathDiv
  | MathMod | MathSign | Copy | EndMonInvent | Grave | FramePush | FramePop
  | Call | Return | InitLevel | LevelFlags | VarInit | ShuffleArray | Dice
  | SelAdd | SelPoint | SelRect | SelFillRect | SelLine | SelRndLine
  | SelGrow | SelFlood | SelRndCoord | SelEllipse | SelFilter | SelGradient
  | SelComplement
deriving DecidableEq, Repr

/-- Typed operand pushed with `Push` (`enum SpOperand`).
Numeric fields keep the source's width through explicit wrapping casts. -/
inductive SpOperand where
  | int (val : Int)
  | str (val : List Char)
  | var (name : List Char)
  | coord (x y : Int) (is_random : Bool) (flags : Int)
  | region (x1 y1 x2 y2 : Int)
  | mapchar (typ lit : Int)
  | monst (cls id : Int)
  | obj (cls id : Int)
  | sel (bytes : List Nat)
deriving DecidableEq, Repr

/-- A single instruction record (`struct SpLevOpcode`). -/
structure SpLevOpcode where
  opcode : SpOpcode
  operand : Option SpOperand
deriving DecidableEq, Repr

/-- A compiled special level (`struct SpecialLevel`). -/
structure SpecialLevel where
  name : List Char
  opcodes : List SpLevOpcode
deriving DecidableEq, Repr

/-- A parsed `.des` file (`struct DesFile`). -/
structure DesFile where
  levels : List SpecialLevel
deriving DecidableEq, Repr

-- Level flag bits (`bitflags LevelFlags`), as a plain namespace of masks.
namespace LevelFlagsBits
def NOTELEPORT : Nat := 0x0001
def HARDFLOOR : Nat := 0x0002
def NOMMAP : Nat := 0x0004
def SHORTSIGHTED : Nat := 0x0008
def ARBOREAL : Nat := 0x0010
def MAZELEVEL : Nat := 0x0020
def PREMAPPED : Nat := 0x0040
def SHROUD : Nat := 0x0080
def GRAVEYARD : Nat := 0x0100
def ICEDPOOLS : Nat := 0x0200
def SOLIDIFY : Nat := 0x0400
def CORRMAZE : Nat := 0x0800
def CHECK_INACCESSIBLES : Nat := 0x1000
end LevelFlagsBits

-- Monster modifier flag values (`enum SpMonVarFlag`), as i64 constants.
namespace SpMonVarFlagVal
def Peaceful : Int := 0
def Align : Int := 1
def Asleep : Int := 2
def Appear : Int := 3
def Name : Int := 4
def Female : Int := 5
def Invis : Int := 6
def Cancelled : Int := 7
def Revived : Int := 8
def Avenge : Int := 9
def Fleeing : Int := 10
def Blinded : Int := 11
def Paralyzed : Int := 12
def Stunned : Int := 13
def Confused : Int := 14
def SeenTraps : Int := 15
def End : Int := 16
end SpMonVarFlagVal

/-! ## Machine-integer casts -/

/-- Interpretation of a Rust `as i16` cast on an i64 value: keep the low 16
bits, read as two's complement. -/
def toI16 (n : Int) : Int :=
  let m := n % 65536
  if m < 32768 then m else m - 65536

/-- Interpretation of a Rust `as u8` cast on an i64 value. -/
def toU8 (n : Int) : Nat := (n % 256).toNat

/-- Unsigned 64-bit bit pattern of an i64 value (used to express the
bitwise operations of the unpackers through `emod` and division). -/
def toU64 (n : Int) : Int := n % 2 ^ 64

/-! ## Terrain map, from `des_parser.rs` -/

def INVALID_TYPE : Int := 127
def MAX_TYPE : Int := 36

/-- Convert a display character to a terrain type (`what_map_char`).
The source is a Rust `match` over character literals; it is rendered here
as the equivalent chain of character comparisons. -/
def what_map_char (c : Char) : Int :=
  if c = ' ' then 0 -- STONE
  else if c = '#' then 23 -- CORR
  else if c = '.' then 24 -- ROOM
  else if c = '-' then 2 -- HWALL
  else if c = '|' then 1 -- VWALL
  else if c = '+' then 22 -- DOOR
  else if c = 'A' then 34 -- AIR
  else if c = 'B' then 7 -- CROSSWALL (boundary)
  else if c = 'C' then 35 -- CLOUD
  else if c = 'S' then 14 -- SDOOR
  else if c = 'H' then 15 -- SCORR
  else if c = '{' then 27 -- FOUNTAIN
  else if c = '\\' then 28 -- THRONE
  else if c = 'K' then 29 -- SINK
  else if c = '}' then 17 -- MOAT
  else if c = 'P' then 16 -- POOL
  else if c = 'L' then 20 -- LAVAPOOL
  else if c = 'I' then 32 -- ICE
  else if c = 'W' then 18 -- WATER
  else if c = 'T' then 13 -- TREE
  else if c = 'F' then 21 -- IRONBARS
  else if c = 'x' then MAX_TYPE -- see-through
  else INVALID_TYPE

/-- Result of `scan_map` (`struct ScanMapResult`). -/
structure ScanMapResult where
  data : List Char
  height : Nat
  width : Nat
deriving DecidableEq, Repr

/-- Rust `str::len`: the UTF-8 byte length of a character list. -/
def rustByteLen (l : List Char) : Nat := (l.map (fun c => c.utf8Size)).sum

/-- Rust `str::split(sep)` on a character list. -/
def splitOnChar (sep : Char) : List Char → List (List Char)
  | [] => [[]]
  | c :: cs =>
    match splitOnChar sep cs with
    | [] => [[]]
    | r :: rs => if c = sep then [] :: r :: rs else (c :: r) :: rs

/-- One converted map byte: `what_map_char` with invalid mapped to STONE,
then the `(terrain as u8).wrapping_add(1)` of the source. -/
def convByte (c : Char) : Nat :=
  let terrain := what_map_char c
  let terrain := if terrain = INVALID_TYPE then 0 else terrain
  (toU8 terrain + 1) % 256

/-- Replication of C's `scan_map` (`fn scan_map` in `des_parser.rs`):
strip digits, split on line feeds, convert each character through
`what_map_char` plus one, pad shorter rows (by Rust byte length) with
STONE+1 = 1. -/
def scan_map (raw : List Char) : ScanMapResult :=
  let stripped := raw.filter (fun c => !c.isDigit)
  let rows := splitOnChar '\n' stripped
  let max_len := (rows.map rustByteLen).foldr Nat.max 0
  let max_hig := rows.length
  let buf := rows.flatMap
    (fun row => row.map convByte ++ List.replicate (max_len - rustByteLen row) 1)
  { data := buf.map Char.ofNat, height := max_hig, width := max_len }

/-! ## Tokens and lexer, from `des_lexer.rs` -/

/-- Nullary token kinds.  The source declares one flat `enum Token`; the
payload-free variants are split into this enum purely so that decidable
equality stays cheap to derive — `Token` below restores the source shape
and names. -/
inductive Kw where
  | Maze | Level | Flags | InitMap | Geometry | Nomap | Message
  | Map
  | Monster | Object | Container | Trap | Door | RoomDoor | Drawbridge
  | Fountain | Sink | Pool | Ladder | Stair | Altar | Portal
  | TeleportRegion | Branch | Gold | Engraving | Grave | MazeWalk | Wallify
  | Mineralize | NonDiggable | NonPasswall
  | Terrain | ReplaceTerrain | Region
  | Room | Subroom | Corridor | RandomCorridors
  | If | Else | For | To | Loop | Switch | Case | Default | Break
  | Function | Exit
  | Selection | Rect | FillRect | Line | RandLine | Grow | FloodFill
  | RndCoord | Circle | Ellipse | Filter | Gradient | Complement
  | Shuffle | Name | MonType | Quantity | Buried | Eroded | ErodeProof
  | Recharged | Invisible | Greased | Female | Cancelled | Revived | Avenge
  | Fleeing | Blinded | Paralyzed | Stunned | Confused | SeenTraps | All
  | MazeGrid | SolidFill | Mines | RogueLev
  | North | East | South | West | Horizontal | Vertical
  | Up | Down
  | Lit | Unlit
  | Peaceful | Hostile | Asleep | Awake
  | MFeature | MMonster | MObject
  | Filled | Unfilled
  | Regular | Irregular | Joined | Unjoined | Limited | Unlimited
  | Left | HalfLeft | Center | HalfRight | Right | Top | Bottom | AlignReg
  | BoolTrue | BoolFalse
  | Random
  | NoneVal
  | Radial | Square
  | Dry | Wet | Hot | Solid | Any
  | CompareEq | CompareNe | CompareLt | CompareGt | CompareLe | CompareGe
  | Trapped | NotTrapped
  | LevRegionKw
  | Colon | Comma | LParen | RParen | LBrace | RBrace | LBracket | RBracket
  | Plus | Minus | DashDash | Equals
  | Pipe
  | Ampersand
  | Eof
deriving DecidableEq, Repr

/-- Token kinds (`enum Token` in `des_lexer.rs`): the payload-free
variants live in `Kw`, the literal carriers are direct constructors. -/
inductive Token where
  | kw (k : Kw)
  | MapData (s : List Char)
  | FlagType (s : List Char)
  | DoorState (s : List Char)
  | Alignment (s : List Char)
  | AltarType (s : List Char)
  | EngravingType (s : List Char)
  | CurseType (s : List Char)
  | String (s : List Char)
  | Char (c : Char)
  | Integer (n : Int)
  | Dice (num die : Int)
  | Percent (n : Int)
  | Variable (name : List Char)
deriving DecidableEq, Repr

namespace Token
abbrev Maze : Token := Token.kw Kw.Maze
abbrev Level : Token := Token.kw Kw.Level
abbrev Flags : Token := Token.kw Kw.Flags
abbrev InitMap : Token := Token.kw Kw.InitMap
abbrev Geometry : Token := Token.kw Kw.Geometry
abbrev Nomap : Token := Token.kw Kw.Nomap
abbrev Message : Token := Token.kw Kw.Message
abbrev Map : Token := Token.kw Kw.Map
abbrev Monster : Token := Token.kw Kw.Monster
abbrev Object : Token := Token.kw Kw.Object
abbrev Container : Token := Token.kw Kw.Container
abbrev Trap : Token := Token.kw Kw.Trap
abbrev Door : Token := Token.kw Kw.Door
abbrev RoomDoor : Token := Token.kw Kw.RoomDoor
abbrev Drawbridge : Token := Token.kw Kw.Drawbridge
abbrev Fountain : Token := Token.kw Kw.Fountain
abbrev Sink : Token := Token.kw Kw.Sink
abbrev Pool : Token := Token.kw Kw.Pool
abbrev Ladder : Token := Token.kw Kw.Ladder
abbrev Stair : Token := Token.kw Kw.Stair
abbrev Altar : Token := Token.kw Kw.Altar
abbrev Portal : Token := Token.kw Kw.Portal
abbrev TeleportRegion : Token := Token.kw Kw.TeleportRegion
abbrev Branch : Token := Token.kw Kw.Branch
abbrev Gold : Token := Token.kw Kw.Gold
abbrev Engraving : Token := Token.kw Kw.Engraving
abbrev Grave : Token := Token.kw Kw.Grave
abbrev MazeWalk : Token := Token.kw Kw.MazeWalk
abbrev Wallify : Token := Token.kw Kw.Wallify
abbrev Mineralize : Token := Token.kw Kw.Mineralize
abbrev NonDiggable : Token := Token.kw Kw.NonDiggable
abbrev NonPasswall : Token := Token.kw Kw.NonPasswall
abbrev Terrain : Token := Token.kw Kw.Terrain
abbrev ReplaceTerrain : Token := Token.kw Kw.ReplaceTerrain
abbrev Region : Token := Token.kw Kw.Region
abbrev Room : Token := Token.kw Kw.Room
abbrev Subroom : Token := Token.kw Kw.Subroom
abbrev Corridor : Token := Token.kw Kw.Corridor
abbrev RandomCorridors : Token := Token.kw Kw.RandomCorridors
abbrev If : Token := Token.kw Kw.If
abbrev Else : Token := Token.kw Kw.Else
abbrev For : Token := Token.kw Kw.For
abbrev To : Token := Token.kw Kw.To
abbrev Loop : Token := Token.kw Kw.Loop
abbrev Switch : Token := Token.kw Kw.Switch
abbrev Case : Token := Token.kw Kw.Case
abbrev Default : Token := Token.kw Kw.Default
abbrev Break : Token := Token.kw Kw.Break
abbrev Function : Token := Token.kw Kw.Function
abbrev Exit : Token := Token.kw Kw.Exit
abbrev Selection : Token := Token.kw Kw.Selection
abbrev Rect : Token := Token.kw Kw.Rect
abbrev FillRect : Token := Token.kw Kw.FillRect
abbrev Line : Token := Token.kw Kw.Line
abbrev RandLine : Token := Token.kw Kw.RandLine
abbrev Grow : Token := Token.kw Kw.Grow
abbrev FloodFill : Token := Token.kw Kw.FloodFill
abbrev RndCoord : Token := Token.kw Kw.RndCoord
abbrev Circle : Token := Token.kw Kw.Circle
abbrev Ellipse : Token := Token.kw Kw.Ellipse
abbrev Filter : Token := Token.kw Kw.Filter
abbrev Gradient : Token := Token.kw Kw.Gradient
abbrev Complement : Token := Token.kw Kw.Complement
abbrev Shuffle : Token := Token.kw Kw.Shuffle
abbrev Name : Token := Token.kw Kw.Name
abbrev MonType : Token := Token.kw Kw.MonType
abbrev Quantity : Token := Token.kw Kw.Quantity
abbrev Buried : Token := Token.kw Kw.Buried
abbrev Eroded : Token := Token.kw Kw.Eroded
abbrev ErodeProof : Token := Token.kw Kw.ErodeProof
abbrev Recharged : Token := Token.kw Kw.Recharged
abbrev Invisible : Token := Token.kw Kw.Invisible
abbrev Greased : Token := Token.kw Kw.Greased
abbrev Female : Token := Token.kw Kw.Female
abbrev Cancelled : Token := Token.kw Kw.Cancelled
abbrev Revived : Token := Token.kw Kw.Revived
abbrev Avenge : Token := Token.kw Kw.Avenge
abbrev Fleeing : Token := Token.kw Kw.Fleeing
abbrev Blinded : Token := Token.kw Kw.Blinded
abbrev Paralyzed : Token := Token.kw Kw.Paralyzed
abbrev Stunned : Token := Token.kw Kw.Stunned
abbrev Confused : Token := Token.kw Kw.Confused
abbrev SeenTraps : Token := Token.kw Kw.SeenTraps
abbrev All : Token := Token.kw Kw.All
abbrev MazeGrid : Token := Token.kw Kw.MazeGrid
abbrev SolidFill : Token := Token.kw Kw.SolidFill
abbrev Mines : Token := Token.kw Kw.Mines
abbrev RogueLev : Token := Token.kw Kw.RogueLev
abbrev North : Token := Token.kw Kw.North
abbrev East : Token := Token.kw Kw.East
abbrev South : Token := Token.kw Kw.South
abbrev West : Token := Token.kw Kw.West
abbrev Horizontal : Token := Token.kw Kw.Horizontal
abbrev Vertical : Token := Token.kw Kw.Vertical
abbrev Up : Token := Token.kw Kw.Up
abbrev Down : Token := Token.kw Kw.Down
abbrev Lit : Token := Token.kw Kw.Lit
abbrev Unlit : Token := Token.kw Kw.Unlit
abbrev Peaceful : Token := Token.kw Kw.Peaceful
abbrev Hostile : Token := Token.kw Kw.Hostile
abbrev Asleep : Token := Token.kw Kw.Asleep
abbrev Awake : Token := Token.kw Kw.Awake
abbrev MFeature : Token := Token.kw Kw.MFeature
abbrev MMonster : Token := Token.kw Kw.MMonster
abbrev MObject : Token := Token.kw Kw.MObject
abbrev Filled : Token := Token.kw Kw.Filled
abbrev Unfilled : Token := Token.kw Kw.Unfilled
abbrev Regular : Token := Token.kw Kw.Regular
abbrev Irregular : Token := Token.kw Kw.Irregular
abbrev Joined : Token := Token.kw Kw.Joined
abbrev Unjoined : Token := Token.kw Kw.Unjoined
abbrev Limited : Token := Token.kw Kw.Limited
abbrev Unlimited : Token := Token.kw Kw.Unlimited
abbrev Left : Token := Token.kw Kw.Left
abbrev HalfLeft : Token := Token.kw Kw.HalfLeft
abbrev Center : Token := Token.kw Kw.Center
abbrev HalfRight : Token := Token.kw Kw.HalfRight
abbrev Right : Token := Token.kw Kw.Right
abbrev Top : Token := Token.kw Kw.Top
abbrev Bottom : Token := Token.kw Kw.Bottom
abbrev AlignReg : Token := Token.kw Kw.AlignReg
abbrev BoolTrue : Token := Token.kw Kw.BoolTrue
abbrev BoolFalse : Token := Token.kw Kw.BoolFalse
abbrev Random : Token := Token.kw Kw.Random
abbrev NoneVal : Token := Token.kw Kw.NoneVal
abbrev Radial : Token := Token.kw Kw.Radial
abbrev Square : Token := Token.kw Kw.Square
abbrev Dry : Token := Token.kw Kw.Dry
abbrev Wet : Token := Token.kw Kw.Wet
abbrev Hot : Token := Token.kw Kw.Hot
abbrev Solid : Token := Token.kw Kw.Solid
abbrev Any : Token := Token.kw Kw.Any
abbrev CompareEq : Token := Token.kw Kw.CompareEq
abbrev CompareNe : Token := Token.kw Kw.CompareNe
abbrev CompareLt : Token := Token.kw Kw.CompareLt
abbrev CompareGt : Token := Token.kw Kw.CompareGt
abbrev CompareLe : Token := Token.kw Kw.CompareLe
abbrev CompareGe : Token := Token.kw Kw.CompareGe
abbrev Trapped : Token := Token.kw Kw.Trapped
abbrev NotTrapped : Token := Token.kw Kw.NotTrapped
abbrev LevRegionKw : Token := Token.kw Kw.LevRegionKw
abbrev Colon : Token := Token.kw Kw.Colon
abbrev Comma : Token := Token.kw Kw.Comma
abbrev LParen : Token := Token.kw Kw.LParen
abbrev RParen : Token := Token.kw Kw.RParen
abbrev LBrace : Token := Token.kw Kw.LBrace
abbrev RBrace : Token := Token.kw Kw.RBrace
abbrev LBracket : Token := Token.kw Kw.LBracket
abbrev RBracket : Token := Token.kw Kw.RBracket
abbrev Plus : Token := Token.kw Kw.Plus
abbrev Minus : Token := Token.kw Kw.Minus
abbrev DashDash : Token := Token.kw Kw.DashDash
abbrev Equals : Token := Token.kw Kw.Equals
abbrev Pipe : Token := Token.kw Kw.Pipe
abbrev Ampersand : Token := Token.kw Kw.Ampersand
abbrev Eof : Token := Token.kw Kw.Eof
end Token

/-- A token with its 1-based source position (`struct Located`). -/
structure Located (α : Type) where
  value : α
  line : Nat
  col : Nat
deriving DecidableEq, Repr

/-- Outcome of running the lexer.  Rust's `Result` has only the first two
shapes; `panicked` records an uncaught Rust panic (an `.expect` in the
integer-literal paths that fires on i64 overflow). -/
inductive LexResult where
  | ok (tokens : List (Located Token))
  | err (line col : Nat) (msg : List Char)
  | panicked (msg : List Char)
deriving DecidableEq, Repr

/-- The ASCII apostrophe, written via its code point. -/
def quoteChar : Char := Char.ofNat 39

/-- The lexer's message for a stray bang: unexpected-bang, with the bang
quoted between apostrophes exactly as the source writes it. -/
def exclMsg : List Char := lstr "unexpected " ++ [quoteChar, '!', quoteChar]

def I64_MIN : Int := -(2 ^ 63)
def I64_MAX : Int := 2 ^ 63 - 1

/-- Rust `str::parse::<i64>()`: optional sign, one or more ASCII digits,
and the value must fit in i64; anything else (including overflow) is a
parse error. -/
def rsParseI64 (s : List Char) : Option Int :=
  let signDigits : Int × List Char :=
    match s with
    | '+' :: rest => (1, rest)
    | '-' :: rest => (-1, rest)
    | rest => (1, rest)
  let sign := signDigits.1
  let digits := signDigits.2
  if digits = [] ∨ ¬ digits.all (fun c => c.isDigit) then none
  else
    let v : Int := sign * digits.foldl (fun acc c => acc * 10 + ((c.toNat : Int) - 48)) 0
    if v < I64_MIN ∨ I64_MAX < v then none else some v

/-- Rust `str::trim` (restricted to the ASCII whitespace the inputs use). -/
def rsTrim (l : List Char) : List Char :=
  ((l.dropWhile (fun c => c.isWhitespace)).reverse.dropWhile
    (fun c => c.isWhitespace)).reverse

/-- The string-literal scanning loop: contents up to the closing quote,
the remaining input, and the number of characters consumed (contents plus
the closing quote); `none` when the input ends first. -/
def scanStringLit : List Char → Option (List Char × List Char × Nat)
  | [] => none
  | '"' :: rest => some ([], rest, 1)
  | c :: rest =>
    match scanStringLit rest with
    | none => none
    | some (s, rem, k) => some (c :: s, rem, k + 1)

/-- Keyword table (the big `match word.as_str()` of the identifier branch);
unknown words become `String` tokens. -/
def keywordToken (word : List Char) : Token :=
  match String.mk word with
  | "MAZE" => .Maze
  | "LEVEL" => .Level
  | "FLAGS" => .Flags
  | "INIT_MAP" => .InitMap
  | "GEOMETRY" => .Geometry
  | "NOMAP" => .Nomap
  | "MESSAGE" => .Message
  | "MONSTER" => .Monster
  | "monster" => .Monster
  | "OBJECT" => .Object
  | "obj" => .Object
  | "object" => .Object
  | "CONTAINER" => .Container
  | "TRAP" => .Trap
  | "DOOR" => .Door
  | "ROOMDOOR" => .RoomDoor
  | "DRAWBRIDGE" => .Drawbridge
  | "FOUNTAIN" => .Fountain
  | "SINK" => .Sink
  | "POOL" => .Pool
  | "LADDER" => .Ladder
  | "STAIR" => .Stair
  | "ALTAR" => .Altar
  | "PORTAL" => .Portal
  | "TELEPORT_REGION" => .TeleportRegion
  | "BRANCH" => .Branch
  | "GOLD" => .Gold
  | "ENGRAVING" => .Engraving
  | "GRAVE" => .Grave
  | "MAZEWALK" => .MazeWalk
  | "WALLIFY" => .Wallify
  | "MINERALIZE" => .Mineralize
  | "NON_DIGGABLE" => .NonDiggable
  | "NON_PASSWALL" => .NonPasswall
  | "TERRAIN" => .Terrain
  | "terrain" => .Terrain
  | "REPLACE_TERRAIN" => .ReplaceTerrain
  | "REGION" => .Region
  | "ROOM" => .Room
  | "SUBROOM" => .Subroom
  | "CORRIDOR" => .Corridor
  | "RANDOM_CORRIDORS" => .RandomCorridors
  | "IF" => .If
  | "ELSE" => .Else
  | "FOR" => .For
  | "TO" => .To
  | "LOOP" => .Loop
  | "SWITCH" => .Switch
  | "CASE" => .Case
  | "DEFAULT" => .Default
  | "BREAK" => .Break
  | "FUNCTION" => .Function
  | "EXIT" => .Exit
  | "selection" => .Selection
  | "rect" => .Rect
  | "fillrect" => .FillRect
  | "line" => .Line
  | "randline" => .RandLine
  | "grow" => .Grow
  | "floodfill" => .FloodFill
  | "rndcoord" => .RndCoord
  | "circle" => .Circle
  | "ellipse" => .Ellipse
  | "filter" => .Filter
  | "gradient" => .Gradient
  | "complement" => .Complement
  | "SHUFFLE" => .Shuffle
  | "NAME" => .Name
  | "name" => .Name
  | "montype" => .MonType
  | "quantity" => .Quantity
  | "buried" => .Buried
  | "eroded" => .Eroded
  | "erodeproof" => .ErodeProof
  | "recharged" => .Recharged
  | "invisible" => .Invisible
  | "greased" => .Greased
  | "female" => .Female
  | "cancelled" => .Cancelled
  | "revived" => .Revived
  | "avenge" => .Avenge
  | "fleeing" => .Fleeing
  | "blinded" => .Blinded
  | "paralyzed" => .Paralyzed
  | "stunned" => .Stunned
  | "confused" => .Confused
  | "seen_traps" => .SeenTraps
  | "all" => .All
  | "mazegrid" => .MazeGrid
  | "solidfill" => .SolidFill
  | "mines" => .Mines
  | "rogue" => .RogueLev
  | "noteleport" => .FlagType word
  | "hardfloor" => .FlagType word
  | "nommap" => .FlagType word
  | "arboreal" => .FlagType word
  | "shortsighted" => .FlagType word
  | "mazelevel" => .FlagType word
  | "premapped" => .FlagType word
  | "shroud" => .FlagType word
  | "graveyard" => .FlagType word
  | "icedpools" => .FlagType word
  | "solidify" => .FlagType word
  | "corrmaze" => .FlagType word
  | "inaccessibles" => .FlagType word
  | "north" => .North
  | "east" => .East
  | "south" => .South
  | "west" => .West
  | "horizontal" => .Horizontal
  | "vertical" => .Vertical
  | "up" => .Up
  | "down" => .Down
  | "open" => .DoorState word
  | "closed" => .DoorState word
  | "locked" => .DoorState word
  | "nodoor" => .DoorState word
  | "broken" => .DoorState word
  | "secret" => .DoorState word
  | "lit" => .Lit
  | "unlit" => .Unlit
  | "noalign" => .Alignment word
  | "law" => .Alignment word
  | "neutral" => .Alignment word
  | "chaos" => .Alignment word
  | "coaligned" => .Alignment word
  | "noncoaligned" => .Alignment word
  | "altar" => .AltarType (lstr "altar")
  | "shrine" => .AltarType (lstr "shrine")
  | "sanctum" => .AltarType (lstr "sanctum")
  | "peaceful" => .Peaceful
  | "hostile" => .Hostile
  | "asleep" => .Asleep
  | "awake" => .Awake
  | "m_feature" => .MFeature
  | "m_monster" => .MMonster
  | "m_object" => .MObject
  | "filled" => .Filled
  | "unfilled" => .Unfilled
  | "regular" => .Regular
  | "irregular" => .Irregular
  | "joined" => .Joined
  | "unjoined" => .Unjoined
  | "limited" => .Limited
  | "unlimited" => .Unlimited
  | "left" => .Left
  | "half-left" => .HalfLeft
  | "center" => .Center
  | "half-right" => .HalfRight
  | "right" => .Right
  | "top" => .Top
  | "bottom" => .Bottom
  | "align" => .AlignReg
  | "dust" => .EngravingType word
  | "engrave" => .EngravingType word
  | "burn" => .EngravingType word
  | "mark" => .EngravingType word
  | "blood" => .EngravingType word
  | "blessed" => .CurseType word
  | "uncursed" => .CurseType word
  | "cursed" => .CurseType word
  | "true" => .BoolTrue
  | "false" => .BoolFalse
  | "random" => .Random
  | "none" => .NoneVal
  | "radial" => .Radial
  | "square" => .Square
  | "dry" => .Dry
  | "wet" => .Wet
  | "hot" => .Hot
  | "solid" => .Solid
  | "any" => .Any
  | "trapped" => .Trapped
  | "not_trapped" => .NotTrapped
  | "levregion" => .LevRegionKw
  | _ => .String word

/-- Outcome of the MAP-block capture loop. -/
inductive MapCapResult where
  | ok (mapData : List Char) (rem : List Char) (line : Nat)
  | failed
  | fuelOut
deriving DecidableEq, Repr

/-- The MAP…ENDMAP capture loop: accumulate raw lines until a line whose
trimmed content is exactly ENDMAP; end of input before that is the
unterminated-MAP-block failure.  One fuel unit per captured line. -/
def mapCapture (fuel : Nat) (cs : List Char) (line : Nat) (acc : List Char) :
    MapCapResult :=
  match fuel with
  | 0 => .fuelOut
  | fuel' + 1 =>
    let lineBuf := cs.takeWhile (fun c => ¬ (c = '\n' ∨ c = '\r'))
    let rest := cs.dropWhile (fun c => ¬ (c = '\n' ∨ c = '\r'))
    let step : List Char × Bool :=
      match rest with
      | '\n' :: r => (r, true)
      | '\r' :: '\n' :: r => (r, true)
      | '\r' :: r => (r, true)
      | _ => (rest, false)
    if rsTrim lineBuf = lstr "ENDMAP" then
      .ok acc step.1 (line + 1)
    else if step.2 then
      mapCapture fuel' step.1 (line + 1) (acc ++ lineBuf ++ ['\n'])
    else
      -- no newline found means the input is exhausted before ENDMAP
      .failed

/-- The main lexer loop (`fn lex`), one fuel unit per produced token or
skipped character; every iteration consumes at least one character, so
the fuel supplied by `lex` is never exhausted. -/
def lexLoop (fuel : Nat) (cs : List Char) (line col : Nat)
    (acc : List (Located Token)) : LexResult :=
  match fuel with
  | 0 => .panicked (lstr "model: lexer fuel exhausted")
  | fuel' + 1 =>
    match cs with
    | [] => .ok ((Located.mk Token.Eof line col :: acc).reverse)
    | ch :: rest =>
      let start_line := line
      let start_col := col
      -- continue the loop after pushing one token located at the start
      let emit := fun (tok : Token) (rem : List Char) (col' : Nat) =>
        lexLoop fuel' rem line col' (Located.mk tok start_line start_col :: acc)
      -- close a character literal: the next character must be a quote
      let closeChar := fun (c : Char) (cs' : List Char) (col' : Nat) =>
        match cs' with
        | q :: rem =>
          if q = quoteChar then emit (Token.Char c) rem (col' + 1)
          else LexResult.err start_line start_col (lstr "unterminated char literal")
        | [] => LexResult.err start_line start_col (lstr "unterminated char literal")
      -- the shared integer / dice / percent tail of the number branch;
      -- its `cs'` starts at the digit run, `neg` records a consumed minus
      let numberTail := fun (cs' : List Char) (col0 : Nat) (neg : Bool) =>
        let digits := cs'.takeWhile (fun c => c.isDigit)
        let rem1 := cs'.dropWhile (fun c => c.isDigit)
        let s := (if neg then ['-'] else []) ++ digits
        let col1 := col0 + digits.length
        match rem1 with
        | 'd' :: rest2 =>
          match rsParseI64 s with
          | none => LexResult.panicked (lstr "digits")
          | some num =>
            let dieS := rest2.takeWhile (fun c => c.isDigit)
            let die := (rsParseI64 dieS).getD 0
            emit (Token.Dice num die) (rest2.dropWhile (fun c => c.isDigit))
              (col1 + 1 + dieS.length)
        | '%' :: rest2 =>
          match rsParseI64 s with
          | none => LexResult.panicked (lstr "digits")
          | some n => emit (Token.Percent n) rest2 (col1 + 1)
        | _ =>
          match rsParseI64 s with
          | none => LexResult.panicked (lstr "digits")
          | some n => emit (Token.Integer n) rem1 col1
      if ch = '\n' then lexLoop fuel' rest (line + 1) 1 acc
      else if ch = '\r' then
        match rest with
        | '\n' :: r2 => lexLoop fuel' r2 (line + 1) 1 acc
        | _ => lexLoop fuel' rest (line + 1) 1 acc
      else if ch = ' ' ∨ ch = '\t' then lexLoop fuel' rest line (col + 1) acc
      else if ch = '#' then
        -- line comment: consume up to (not including) the next line feed
        lexLoop fuel' (cs.dropWhile (fun c => c ≠ '\n')) line
          (col + (cs.takeWhile (fun c => c ≠ '\n')).length) acc
      else if ch = '"' then
        match scanStringLit rest with
        | none => .err start_line start_col (lstr "unterminated string")
        | some (s, rem, k) => emit (Token.String s) rem (col + 1 + k)
      else if ch = quoteChar then
        match rest with
        | '\\' :: rest2 =>
          match rest2 with
          | [] => .err start_line start_col (lstr "unterminated char literal")
          | c2 :: rest3 =>
            if c2 = quoteChar then
              -- the two characters after the opening quote are a backslash
              -- and a quote: the literal denotes the backslash itself, and
              -- only the backslash is consumed here
              closeChar '\\' rest2 (col + 2)
            else closeChar c2 rest3 (col + 3)
        | c :: rest2 => closeChar c rest2 (col + 2)
        | [] => .err start_line start_col (lstr "unterminated char literal")
      else if ch = '$' then
        let name := rest.takeWhile (fun c => c.isAlphanum ∨ c = '_')
        emit (Token.Variable name) (rest.dropWhile (fun c => c.isAlphanum ∨ c = '_'))
          (col + 1 + name.length)
      else if ch = '[' then
        -- lookahead for a bracketed percent literal
        let saved := rest.take 20
        match saved.findIdx? (fun c => c = '%') with
        | some pctEnd =>
          let numStr := (saved.take pctEnd).filter (fun c => ¬ c.isWhitespace)
          let afterPct := saved.drop (pctEnd + 1)
          match afterPct.findIdx? (fun c => c = ']'), rsParseI64 numStr with
          | some closePos, some n =>
            let total := pctEnd + 1 + closePos + 1
            emit (Token.Percent n) (rest.drop total) (col + 1 + total)
          | _, _ => emit Token.LBracket rest (col + 1)
        | none => emit Token.LBracket rest (col + 1)
      else if ch = ':' then emit Token.Colon rest (col + 1)
      else if ch = ',' then emit Token.Comma rest (col + 1)
      else if ch = '(' then emit Token.LParen rest (col + 1)
      else if ch = ')' then emit Token.RParen rest (col + 1)
      else if ch = '{' then emit Token.LBrace rest (col + 1)
      else if ch = '}' then emit Token.RBrace rest (col + 1)
      else if ch = ']' then emit Token.RBracket rest (col + 1)
      else if ch = '&' then emit Token.Ampersand rest (col + 1)
      else if ch = '|' then emit Token.Pipe rest (col + 1)
      else if ch = '=' then
        match rest with
        | '=' :: r2 => emit Token.CompareEq r2 (col + 2)
        | _ => emit Token.Equals rest (col + 1)
      else if ch = '!' then
        match rest with
        | '=' :: r2 => emit Token.CompareNe r2 (col + 2)
        | _ => .err start_line start_col exclMsg
      else if ch = '<' then
        match rest with
        | '=' :: r2 => emit Token.CompareLe r2 (col + 2)
        | '>' :: r2 => emit Token.CompareNe r2 (col + 2)
        | _ => emit Token.CompareLt rest (col + 1)
      else if ch = '>' then
        match rest with
        | '=' :: r2 => emit Token.CompareGe r2 (col + 2)
        | _ => emit Token.CompareGt rest (col + 1)
      else if ch = '+' then
        match rest with
        | d :: _ =>
          if d.isDigit then
            let digits := rest.takeWhile (fun c => c.isDigit)
            match rsParseI64 digits with
            | none => .panicked (lstr "digits")
            | some n =>
              emit (Token.Integer n) (rest.dropWhile (fun c => c.isDigit))
                (col + 1 + digits.length)
          else emit Token.Plus rest (col + 1)
        | [] => emit Token.Plus rest (col + 1)
      else if ch = '-' ∨ ch.isDigit then
        if ch = '-' then
          match rest with
          | c2 :: rest2 =>
            if c2.isDigit then numberTail rest (col + 1) true
            else if c2 = '-' then emit Token.DashDash rest2 (col + 2)
            else emit Token.Minus rest (col + 1)
          | [] => emit Token.Minus rest (col + 1)
        else numberTail cs col false
      else if ch.isAlpha ∨ ch = '_' then
        let word := cs.takeWhile (fun c => c.isAlphanum ∨ c = '_' ∨ c = '-')
        let rem := cs.dropWhile (fun c => c.isAlphanum ∨ c = '_' ∨ c = '-')
        let col1 := col + word.length
        if word = lstr "MAP" then
          -- map block: consume the remainder of the current line, then
          -- capture verbatim lines until an ENDMAP line
          let _pre := rem.takeWhile (fun c => c ≠ '\n')
          let rem2 := rem.dropWhile (fun c => c ≠ '\n')
          let start : List Char × Nat :=
            match rem2 with
            | '\n' :: r => (r, line + 1)
            | _ => (rem2, line)
          match mapCapture (start.1.length + 1) start.1 start.2 [] with
          | .fuelOut => .panicked (lstr "model: map capture fuel exhausted")
          | .failed => .err start_line start_col (lstr "unterminated MAP block")
          | .ok mdata rem3 line3 =>
            let mdata := if mdata.getLast? = some '\n' then mdata.dropLast else mdata
            lexLoop fuel' rem3 line3 1
              (Located.mk (Token.MapData mdata) (start_line + 1) 1 ::
                Located.mk Token.Map start_line start_col :: acc)
        else emit (keywordToken word) rem col1
      else
        -- unknown character: silently skipped
        lexLoop fuel' rest line (col + 1) acc

/-- The lexer entry point (`pub fn lex`). -/
def lex (input : List Char) : LexResult :=
  lexLoop (input.length + 1) input 1 1 []

/-! ## Parser state and primitives, from `des_parser.rs` -/

/-- Variable type tracking for the symbol table (`enum VarType`). -/
inductive VarType where
  | int | str | coord | region | mapchar | monst | obj | sel
deriving DecidableEq, Repr

/-- Symbol-table entry (`struct VarDef`). -/
structure VarDef where
  typ : VarType
  is_array : Bool
deriving DecidableEq, Repr

/-- Parse error (`enum DesParseError`).  The source interpolates the
offending token's debug form into some messages; the model keeps the
static message text only, which no claim inspects. -/
structure DesParseError where
  line : Nat
  msg : List Char
deriving DecidableEq, Repr

/-- Parser state (`struct Parser`).  The `HashMap` symbol table is an
association list updated by `insertVar`. -/
structure PState where
  tokens : List (Located Token)
  pos : Nat
  opcodes : List SpLevOpcode
  vars : List (List Char × VarDef)
  container_depth : Nat
  levels : List SpecialLevel
  level_name : List Char
  roomfill : Int
deriving DecidableEq, Repr

/-- HashMap insert on the association-list model. -/
def insertVar (k : List Char) (v : VarDef) (m : List (List Char × VarDef)) :
    List (List Char × VarDef) :=
  (k, v) :: m.filter (fun p => p.1 ≠ k)

def current_line (s : PState) : Nat := ((s.tokens.get? s.pos).map (·.line)).getD 0

/-- Rust `Parser::peek`. -/
def peekT (s : PState) : Token := ((s.tokens.get? s.pos).map (·.value)).getD Token.Eof

/-- Rust `Parser::advance` (the returned token is read through `peekT`
by the callers of this model). -/
def advanceP (s : PState) : PState :=
  if s.pos < s.tokens.length then { s with pos := s.pos + 1 } else s

def perr (s : PState) (msg : List Char) : DesParseError := ⟨current_line s, msg⟩

def fuelMsg : List Char := lstr "model: fuel exhausted"
def fragMsg : List Char := lstr "model: statement outside embedded fragment"

/-- Rust `Parser::expect`: discriminant comparison.  Every call site in
the embedded fragment passes a payload-free token, for which discriminant
equality coincides with equality. -/
def expectT (expected : Token) (s : PState) : Except DesParseError PState :=
  if peekT s = expected then .ok (advanceP s)
  else .error (perr s (lstr "expected token"))

def emitOp (op : SpOpcode) (s : PState) : PState :=
  { s with opcodes := s.opcodes ++ [⟨op, none⟩] }

def emit_push_int (v : Int) (s : PState) : PState :=
  { s with opcodes := s.opcodes ++ [⟨.Push, some (.int v)⟩] }

def emit_push_str (v : List Char) (s : PState) : PState :=
  { s with opcodes := s.opcodes ++ [⟨.Push, some (.str v)⟩] }

def emit_push_coord (x y : Int) (is_random : Bool) (flags : Int) (s : PState) : PState :=
  { s with opcodes := s.opcodes ++ [⟨.Push, some (.coord x y is_random flags)⟩] }

def emit_push_region (x1 y1 x2 y2 : Int) (s : PState) : PState :=
  { s with opcodes := s.opcodes ++ [⟨.Push, some (.region x1 y1 x2 y2)⟩] }

def emit_push_mapchar (typ lit : Int) (s : PState) : PState :=
  { s with opcodes := s.opcodes ++ [⟨.Push, some (.mapchar typ lit)⟩] }

def emit_push_monst (cls id : Int) (s : PState) : PState :=
  { s with opcodes := s.opcodes ++ [⟨.Push, some (.monst cls id)⟩] }

def emit_push_obj (cls id : Int) (s : PState) : PState :=
  { s with opcodes := s.opcodes ++ [⟨.Push, some (.obj cls id)⟩] }

/-- Prefix a variable name with the dollar the binary format preserves. -/
def dollarName (name : List Char) : List Char :=
  if name.head? = some '$' then name else '$' :: name

def emit_push_var (name : List Char) (s : PState) : PState :=
  { s with opcodes := s.opcodes ++ [⟨.Push, some (.var (dollarName name))⟩] }

def emit_var_init (name : List Char) (count : Int) (s : PState) : PState :=
  emitOp .VarInit (emit_push_str (dollarName name) (emit_push_int count s))

def is_in_container (s : PState) : Bool := s.container_depth > 0

def current_offset (s : PState) : Nat := s.opcodes.length

/-- Rust `Parser::patch_jump`: rewrite a previously emitted integer push
so that it holds `target - stored`. -/
def patch_jump (push_idx : Nat) (s : PState) : PState :=
  let target : Int := current_offset s
  match s.opcodes.get? push_idx with
  | some op =>
    match op.operand with
    | some (SpOperand.int v) =>
      { s with opcodes := s.opcodes.set push_idx ⟨op.opcode, some (.int (target - v))⟩ }
    | _ => s
  | none => s

/-- Rust `Parser::finish_level`: seal the current level (when named) and
reset the per-level state. -/
def finish_level (s : PState) : PState :=
  if s.level_name ≠ [] then
    { s with
      opcodes := [],
      levels := s.levels ++ [⟨s.level_name, s.opcodes⟩],
      level_name := [],
      vars := [],
      container_depth := 0,
      roomfill := 1 }
  else s

/-! ## Name resolution -/

/-- One monster-table entry: the display name and class symbol. -/
structure MonsterEntry where
  name : List Char
  symbol : Char
deriving DecidableEq, Repr

/-- Modelled from the spec: the static monster table lives in a crate
module that is out of the specified scope (spec §1 and §2 treat the name
tables as read-only lookups supplied by the host).  No claim depends on
its contents, so the model leaves it empty; `get_monster_id` below still
follows the source's two-pass lookup over it. -/
def MONSTERS : List MonsterEntry := []

/-- Rust `get_monster_id`: exact pass then ASCII-lowercased pass over the
table, filtered by class symbol when the class char is nonzero. -/
def get_monster_id (name : List Char) (class_char : Char) : Option Int :=
  let classOk := fun (m : MonsterEntry) =>
    class_char = Char.ofNat 0 ∨ m.symbol = class_char
  let exact := MONSTERS.findIdx? (fun m => classOk m ∧ m.name = name)
  match exact with
  | some i => some (i : Int)
  | none =>
    let lower := name.map Char.toLower
    (MONSTERS.findIdx? (fun m =>
      classOk m ∧ m.name.map Char.toLower = lower)).map (fun i => (i : Int))

/-! ## Parser productions -/

/-- Rust `Parser::try_percent_prefix` (renamed for this file): consume a
leading `Percent` token when present. -/
def try_percent_pfx (s : PState) : Option Int × PState :=
  match peekT s with
  | .Percent n => (some n, advanceP s)
  | _ => (none, s)

/-- Rust `Parser::emit_percent_condition`: the if-percent condition
sequence; returns the index of the jump-target push to patch later. -/
def emit_percent_condition (pct : Int) (s : PState) : Nat × PState :=
  let s := emit_push_int pct s
  let s := emit_push_int 100 s
  let s := emitOp .Rn2 s
  let s := emit_push_int 0 s
  let s := emitOp .Cmp s
  let jmp_idx := current_offset s
  let s := emit_push_int ((jmp_idx : Int) + 1) s
  let s := emitOp .Jg s
  (jmp_idx, s)

/-- Rust `Parser::parse_comparison_op`: map the comparison token to the
negated jump opcode. -/
def parse_comparison_op (s : PState) : Except DesParseError (SpOpcode × PState) :=
  match peekT s with
  | .kw .CompareEq => .ok (.Jne, advanceP s)
  | .kw .CompareNe => .ok (.Je, advanceP s)
  | .kw .CompareLt => .ok (.Jge, advanceP s)
  | .kw .CompareLe => .ok (.Jg, advanceP s)
  | .kw .CompareGt => .ok (.Jle, advanceP s)
  | .kw .CompareGe => .ok (.Jl, advanceP s)
  | _ => .error (perr s (lstr "expected comparison operator"))

def parse_string (s : PState) : Except DesParseError (List Char × PState) :=
  match peekT s with
  | .String str => .ok (str, advanceP s)
  | _ => .error (perr s (lstr "expected string"))

def parse_integer (s : PState) : Except DesParseError (Int × PState) :=
  match peekT s with
  | .Integer n => .ok (n, advanceP s)
  | _ => .error (perr s (lstr "expected integer"))

/-- Rust `Parser::parse_integer_or_var`. -/
def parse_integer_or_var (s : PState) : Except DesParseError PState :=
  match peekT s with
  | .Integer n => .ok (emit_push_int n (advanceP s))
  | .Dice num die =>
    .ok (emitOp .Dice (emit_push_int die (emit_push_int num (advanceP s))))
  | .Variable name =>
    let s := advanceP s
    if peekT s = Token.LBracket then do
      let s := advanceP s
      let (idx, s) ← parse_integer s
      let s ← expectT Token.RBracket s
      .ok (emit_push_var name (emit_push_int idx s))
    else .ok (emit_push_var name s)
  | _ => .error (perr s (lstr "expected integer, dice, or variable"))

/-- The binary-operator loop of `Parser::parse_math_expr`; one fuel unit
per operator, self-supplied from the remaining token count. -/
def parse_math_expr_loop (fuel : Nat) (s : PState) : Except DesParseError PState :=
  match fuel with
  | 0 => .error (perr s fuelMsg)
  | fuel + 1 =>
    match peekT s with
    | .kw .Plus => do
      let s ← parse_integer_or_var (advanceP s)
      parse_math_expr_loop fuel (emitOp .MathAdd s)
    | .kw .Minus => do
      let s ← parse_integer_or_var (advanceP s)
      parse_math_expr_loop fuel (emitOp .MathSub s)
    | _ => .ok s

/-- Rust `Parser::parse_math_expr`. -/
def parse_math_expr (s : PState) : Except DesParseError PState := do
  let s ← parse_integer_or_var s
  parse_math_expr_loop (s.tokens.length + 1 - s.pos) s

/-- Rust `Parser::parse_string_expr`. -/
def parse_string_expr (s : PState) : Except DesParseError PState :=
  match peekT s with
  | .String str => .ok (emit_push_str str (advanceP s))
  | .Variable name =>
    let s := advanceP s
    if peekT s = Token.LBracket then do
      let s := advanceP s
      let (idx, s) ← parse_integer s
      let s ← expectT Token.RBracket s
      .ok (emit_push_var name (emit_push_int idx s))
    else .ok (emit_push_var name s)
  | _ => .error (perr s (lstr "expected string or variable"))

/-- Rust `Parser::parse_coord_or_var`.  The `rndcoord(...)` arm belongs
to the selection sub-language, which is outside the embedded fragment;
it is mapped to the fragment error and exercised by no theorem. -/
def parse_coord_or_var (s : PState) : Except DesParseError PState :=
  match peekT s with
  | .kw .Random => .ok (emit_push_coord (-1) (-1) true 0 (advanceP s))
  | .kw .LParen => do
    let s := advanceP s
    let (x, s) ← parse_integer s
    let s ← expectT Token.Comma s
    let (y, s) ← parse_integer s
    let s ← expectT Token.RParen s
    .ok (emit_push_coord (toI16 x) (toI16 y) false 0 s)
  | .Variable name =>
    let s := advanceP s
    if peekT s = Token.LBracket then do
      let s := advanceP s
      let (idx, s) ← parse_integer s
      let s ← expectT Token.RBracket s
      .ok (emit_push_var name (emit_push_int idx s))
    else .ok (emit_push_var name s)
  | .kw .RndCoord => .error (perr s fragMsg)
  | _ => .error (perr s (lstr "expected coordinate, random, or variable"))

/-- Rust `Parser::parse_monster_or_var`. -/
def parse_monster_or_var (s : PState) : Except DesParseError PState :=
  match peekT s with
  | .kw .LParen => do
    let s := advanceP s
    let (class_char, s) ← (match peekT s with
      | Token.Char c => Except.ok (c, advanceP s)
      | _ => Except.error (perr s (lstr "expected monster class char")))
    let s ← expectT Token.Comma s
    let (name, s) ← parse_string s
    let s ← expectT Token.RParen s
    let id := (get_monster_id name class_char).getD (-1)
    .ok (emit_push_monst (toI16 (class_char.toNat : Int)) id s)
  | .Char c => .ok (emit_push_monst (toI16 (c.toNat : Int)) (-1) (advanceP s))
  | .kw .Random =>
    -- C: -1 unpacks via SP_MONST_CLASS/PM to class=255, id=-11
    .ok (emit_push_monst 255 (-11) (advanceP s))
  | .Variable name =>
    let s := advanceP s
    if peekT s = Token.LBracket then do
      let s := advanceP s
      let (idx, s) ← parse_integer s
      let s ← expectT Token.RBracket s
      .ok (emit_push_var name (emit_push_int idx s))
    else .ok (emit_push_var name s)
  | _ => .error (perr s (lstr "expected monster spec, random, or variable"))

/-- The modifier loop of `Parser::parse_monster_modifiers`; one fuel unit
per modifier, self-supplied from the remaining token count. -/
def parse_monster_modifiers_loop (fuel : Nat) (s : PState) :
    Except DesParseError PState :=
  match fuel with
  | 0 => .error (perr s fuelMsg)
  | fuel + 1 =>
    if peekT s = Token.Comma then
      let s := advanceP s
      match peekT s with
      | .kw .Peaceful =>
        parse_monster_modifiers_loop fuel
          (emit_push_int SpMonVarFlagVal.Peaceful (emit_push_int 1 (advanceP s)))
      | .kw .Hostile =>
        parse_monster_modifiers_loop fuel
          (emit_push_int SpMonVarFlagVal.Peaceful (emit_push_int 0 (advanceP s)))
      | .kw .Asleep =>
        parse_monster_modifiers_loop fuel
          (emit_push_int SpMonVarFlagVal.Asleep (emit_push_int 1 (advanceP s)))
      | .kw .Awake =>
        parse_monster_modifiers_loop fuel
          (emit_push_int SpMonVarFlagVal.Asleep (emit_push_int 0 (advanceP s)))
      | .kw .Female =>
        parse_monster_modifiers_loop fuel
          (emit_push_int SpMonVarFlagVal.Female (emit_push_int 1 (advanceP s)))
      | .kw .Invisible =>
        parse_monster_modifiers_loop fuel
          (emit_push_int SpMonVarFlagVal.Invis (emit_push_int 1 (advanceP s)))
      | .kw .Cancelled =>
        parse_monster_modifiers_loop fuel
          (emit_push_int SpMonVarFlagVal.Cancelled (emit_push_int 1 (advanceP s)))
      | .kw .Revived =>
        parse_monster_modifiers_loop fuel
          (emit_push_int SpMonVarFlagVal.Revived (emit_push_int 1 (advanceP s)))
      | .kw .Avenge =>
        parse_monster_modifiers_loop fuel
          (emit_push_int SpMonVarFlagVal.Avenge (emit_push_int 1 (advanceP s)))
      | .kw .Stunned =>
        parse_monster_modifiers_loop fuel
          (emit_push_int SpMonVarFlagVal.Stunned (emit_push_int 1 (advanceP s)))
      | .kw .Confused =>
        parse_monster_modifiers_loop fuel
          (emit_push_int SpMonVarFlagVal.Confused (emit_push_int 1 (advanceP s)))
      | .Alignment al =>
        let val : Int :=
          if al = lstr "noalign" then 4
          else if al = lstr "law" then 1
          else if al = lstr "neutral" then 0
          else if al = lstr "chaos" then -1
          else 0
        parse_monster_modifiers_loop fuel
          (emit_push_int SpMonVarFlagVal.Align (emit_push_int val (advanceP s)))
      | .kw .MObject => do
        let s ← parse_string_expr (advanceP s)
        parse_monster_modifiers_loop fuel
          (emit_push_int SpMonVarFlagVal.Appear (emit_push_int 2 s))
      | .kw .MFeature => do
        let s ← parse_string_expr (advanceP s)
        parse_monster_modifiers_loop fuel
          (emit_push_int SpMonVarFlagVal.Appear (emit_push_int 0 s))
      | .kw .MMonster => do
        let s ← parse_string_expr (advanceP s)
        parse_monster_modifiers_loop fuel
          (emit_push_int SpMonVarFlagVal.Appear (emit_push_int 1 s))
      | .kw .Name => do
        let s := advanceP s
        let s ← expectT Token.Colon s
        let s ← parse_string_expr s
        parse_monster_modifiers_loop fuel (emit_push_int SpMonVarFlagVal.Name s)
      | .String _ => do
        let s ← parse_string_expr s
        parse_monster_modifiers_loop fuel (emit_push_int SpMonVarFlagVal.Name s)
      | _ => .ok s -- unknown modifier: stop (the comma stays consumed)
    else .ok s

/-- Rust `Parser::parse_monster_modifiers`. -/
def parse_monster_modifiers (s : PState) : Except DesParseError PState :=
  parse_monster_modifiers_loop (s.tokens.length + 1 - s.pos) s

/-- Rust `Parser::parse_monster`. -/
def parse_monster (s : PState) : Except DesParseError PState := do
  let s := advanceP s -- MONSTER
  let s ← expectT Token.Colon s
  let s ← parse_monster_or_var s
  let s ← expectT Token.Comma s
  let s ← parse_coord_or_var s
  -- monster_infos base case pushes the End sentinel
  let s := emit_push_int SpMonVarFlagVal.End s
  let s ← parse_monster_modifiers s
  -- count (0 = no inventory)
  let s := emit_push_int 0 s
  .ok (emitOp .Monster s)

/-- The flag-list loop of `Parser::parse_flags`; one fuel unit per flag,
self-supplied from the remaining token count. -/
def parse_flags_loop (fuel : Nat) (flags : Nat) (s : PState) :
    Except DesParseError (Nat × PState) :=
  match fuel with
  | 0 => .error (perr s fuelMsg)
  | fuel + 1 =>
    match peekT s with
    | .FlagType name =>
      let f? : Option Nat :=
        if name = lstr "noteleport" then some LevelFlagsBits.NOTELEPORT
        else if name = lstr "hardfloor" then some LevelFlagsBits.HARDFLOOR
        else if name = lstr "nommap" then some LevelFlagsBits.NOMMAP
        else if name = lstr "shortsighted" then some LevelFlagsBits.SHORTSIGHTED
        else if name = lstr "arboreal" then some LevelFlagsBits.ARBOREAL
        else if name = lstr "mazelevel" then some LevelFlagsBits.MAZELEVEL
        else if name = lstr "premapped" then some LevelFlagsBits.PREMAPPED
        else if name = lstr "shroud" then some LevelFlagsBits.SHROUD
        else if name = lstr "graveyard" then some LevelFlagsBits.GRAVEYARD
        else if name = lstr "icedpools" then some LevelFlagsBits.ICEDPOOLS
        else if name = lstr "solidify" then some LevelFlagsBits.SOLIDIFY
        else if name = lstr "corrmaze" then some LevelFlagsBits.CORRMAZE
        else if name = lstr "inaccessibles" then some LevelFlagsBits.CHECK_INACCESSIBLES
        else none
      match f? with
      | none => .error (perr s (lstr "unknown flag"))
      | some f =>
        let flags := flags ||| f
        let s := advanceP s
        if peekT s = Token.Comma then parse_flags_loop fuel flags (advanceP s)
        else .ok (flags, s)
    | _ => .ok (flags, s)

/-- Rust `Parser::parse_flags`. -/
def parse_flags (s : PState) : Except DesParseError PState := do
  let s := advanceP s -- FLAGS
  let s ← expectT Token.Colon s
  let (flags, s) ← parse_flags_loop (s.tokens.length + 1 - s.pos) 0 s
  .ok (emitOp .LevelFlags (emit_push_int (flags : Int) s))

/-- Rust `Parser::parse_mandatory_flags`: the mandatory `flags`
production; the default is `push 0; LevelFlags`. -/
def parse_mandatory_flags (s : PState) : Except DesParseError PState :=
  if peekT s = Token.Flags then parse_flags s
  else .ok (emitOp .LevelFlags (emit_push_int 0 s))

/-- Rust `Parser::parse_maze`, including the replicated double conversion
of the fill character through `what_map_char`. -/
def parse_maze (s : PState) : Except DesParseError PState := do
  let s := finish_level s
  let s := advanceP s -- MAZE
  let s ← expectT Token.Colon s
  let (name, s) ← parse_string s
  let s := { s with level_name := name }
  let s ← expectT Token.Comma s
  let fillAndState : Int × PState :=
    match peekT s with
    | .kw .Random => (-1, advanceP s)
    | .Char c => (what_map_char c, advanceP s)
    | _ => (0, s)
  let fill_val := fillAndState.1
  let s := fillAndState.2
  let s :=
    if fill_val = -1 then
      -- random fill: mazegrid
      emit_push_int 2 (emit_push_int 2 s)
    else
      -- replicated lev_comp.y bug: what_map_char is applied again to the
      -- already-converted value, reinterpreted as a character
      let bg := what_map_char (Char.ofNat (toU8 fill_val))
      emit_push_int bg (emit_push_int 1 s)
  let s := (List.range 6).foldl (fun s _ => emit_push_int 0 s) s
  let s := emitOp .InitLevel s
  let s := emit_push_int (LevelFlagsBits.MAZELEVEL : Int) s
  let s := emitOp .LevelFlags s
  parse_mandatory_flags s

/-- Rust `Parser::parse_level_def`. -/
def parse_level_def (s : PState) : Except DesParseError PState := do
  let s := finish_level s
  let s := advanceP s -- LEVEL
  let s ← expectT Token.Colon s
  let (name, s) ← parse_string s
  let s := { s with level_name := name }
  -- the `flags` production always fires next in the grammar
  parse_mandatory_flags s

/-- Rust `Parser::parse_message`. -/
def parse_message (s : PState) : Except DesParseError PState := do
  let s := advanceP s -- MESSAGE
  let s ← expectT Token.Colon s
  let s ← parse_string_expr s
  .ok (emitOp .Message s)

/-- Rust `Parser::parse_map_statement`. -/
def parse_map_statement (s : PState) : Except DesParseError PState := do
  let s := advanceP s -- MAP
  match peekT s with
  | .MapData md =>
    let s := advanceP s
    let converted := scan_map md
    let s := emit_push_str converted.data s
    let s := emit_push_int (converted.height : Int) s
    let s := emit_push_int (converted.width : Int) s
    .ok (emitOp .Map s)
  | _ => .error (perr s (lstr "expected map data after MAP"))

/-- Rust `Parser::parse_exit`. -/
def parse_exit (s : PState) : Except DesParseError PState :=
  .ok (emitOp .Exit (advanceP s))

/-! ## Statement dispatch and control flow (mutually recursive, fueled) -/

mutual

/-- Rust `Parser::parse_statement`: statement dispatch.  Keywords of the
productions outside the embedded fragment map to the fragment error; the
final arm is the source's unexpected-token error. -/
def parse_statement (fuel : Nat) (s : PState) : Except DesParseError PState :=
  match fuel with
  | 0 => .error (perr s fuelMsg)
  | fuel + 1 =>
    match peekT s with
    | .kw .Flags => parse_flags s
    | .kw .Map => parse_map_statement s
    | .kw .Message => parse_message s
    | .kw .Monster => parse_monster s
    | .kw .If => parse_if fuel s
    | .kw .For => parse_for fuel s
    | .kw .Loop => parse_loop fuel s
    | .kw .Exit => parse_exit s
    | .kw .InitMap | .kw .Geometry | .kw .Nomap | .kw .Object
    | .kw .Container | .kw .Trap | .kw .Door | .kw .RoomDoor
    | .kw .Drawbridge | .kw .Fountain | .kw .Sink | .kw .Pool
    | .kw .Ladder | .kw .Stair | .kw .Altar | .kw .TeleportRegion
    | .kw .Branch | .kw .Portal | .kw .Gold | .kw .Engraving
    | .kw .Grave | .kw .MazeWalk | .kw .Wallify | .kw .Mineralize
    | .kw .NonDiggable | .kw .NonPasswall | .kw .Terrain
    | .kw .ReplaceTerrain | .kw .Region | .kw .Room | .kw .Subroom
    | .kw .Switch => parse_switch fuel s
    | .kw .Corridor | .kw .RandomCorridors
    | .kw .Function | .kw .Shuffle | .Variable _ =>
      .error (perr s fragMsg)
    | _ => .error (perr s (lstr "unexpected token"))

/-- Rust `Parser::parse_block`: statements inside braces, with optional
percent prefixes, until a closing brace or end of input. -/
def parse_block (fuel : Nat) (s : PState) : Except DesParseError PState :=
  match fuel with
  | 0 => .error (perr s fuelMsg)
  | fuel + 1 =>
    match peekT s with
    | .kw .RBrace | .kw .Eof => .ok s
    | _ =>
      let pctAndState := try_percent_pfx s
      match pctAndState.1 with
      | some pv => do
        let s ← expectT Token.Colon pctAndState.2
        let s ← parse_pct_statement fuel pv s
        parse_block fuel s
      | none => do
        let s ← parse_statement fuel pctAndState.2
        parse_block fuel s

/-- Rust `Parser::parse_pct_statement`: wrap one statement in the
if-percent condition and patch the jump afterwards. -/
def parse_pct_statement (fuel : Nat) (pct : Int) (s : PState) :
    Except DesParseError PState :=
  match fuel with
  | 0 => .error (perr s fuelMsg)
  | fuel + 1 => do
    let ifStart := emit_percent_condition pct s
    let s ← parse_statement fuel ifStart.2
    .ok (patch_jump ifStart.1 s)

/-- Rust `Parser::parse_if`. -/
def parse_if (fuel : Nat) (s : PState) : Except DesParseError PState :=
  match fuel with
  | 0 => .error (perr s fuelMsg)
  | fuel + 1 => do
    let s := advanceP s -- IF
    let (jmp_idx, s) ← (match peekT s with
      | Token.Percent pct =>
        Except.ok (emit_percent_condition pct (advanceP s))
      | Token.kw Kw.LBracket => do
        let s := advanceP s
        let s ← parse_math_expr s
        let (jmp_op, s) ← parse_comparison_op s
        let s ← parse_math_expr s
        let s ← expectT Token.RBracket s
        let s := emitOp .Cmp s
        let idx := current_offset s
        let s := emit_push_int ((idx : Int) + 1) s
        let s := emitOp jmp_op s
        Except.ok (idx, s)
      | _ => do
        -- general condition: truthy check (expr != 0)
        let s ← parse_math_expr s
        let s := emit_push_int 0 s
        let s := emitOp .Cmp s
        let idx := current_offset s
        let s := emit_push_int ((idx : Int) + 1) s
        let s := emitOp .Jne s
        Except.ok (idx, s))
    let s ← expectT Token.LBrace s
    let s ← parse_block fuel s
    let s ← expectT Token.RBrace s
    if peekT s = Token.Else then
      let s := advanceP s
      let else_jmp_idx := current_offset s
      let s := emit_push_int ((else_jmp_idx : Int) + 1) s
      let s := emitOp .Jmp s
      let s := patch_jump jmp_idx s
      let s ← expectT Token.LBrace s
      let s ← parse_block fuel s
      let s ← expectT Token.RBrace s
      .ok (patch_jump else_jmp_idx s)
    else
      .ok (patch_jump jmp_idx s)

/-- Rust `Parser::parse_for`. -/
def parse_for (fuel : Nat) (s : PState) : Except DesParseError PState :=
  match fuel with
  | 0 => .error (perr s fuelMsg)
  | fuel + 1 => do
    let s := advanceP s -- FOR
    let (var_name, s) ← (match peekT s with
      | Token.Variable name => Except.ok (name, advanceP s)
      | _ => Except.error (perr s (lstr "expected variable in FOR")))
    let s ← expectT Token.Equals s
    let s ← parse_math_expr s -- start value
    let full_name := dollarName var_name
    let end_var := full_name ++ lstr " end"
    let step_var := full_name ++ lstr " step"
    let s ← expectT Token.To s
    let s ← parse_math_expr s -- end value
    let s := emit_var_init end_var 0 s
    let s := emit_var_init var_name 0 s
    -- step = sign(end - start)
    let s := emit_push_var end_var s
    let s := emit_push_var var_name s
    let s := emitOp .MathSub s
    let s := emitOp .MathSign s
    let s := emit_var_init step_var 0 s
    let loop_start := current_offset s
    let s ← expectT Token.LBrace s
    let s ← parse_block fuel s
    let s ← expectT Token.RBrace s
    -- compare and loop back
    let s := emit_push_var var_name s
    let s := emit_push_var end_var s
    let s := emitOp .Cmp s
    let s := emit_push_var step_var s
    let s := emit_push_var var_name s
    let s := emitOp .MathAdd s
    let s := emit_var_init var_name 0 s
    let jmp_offset : Int := (loop_start : Int) - (current_offset s : Int) - 1
    let s := emit_push_int jmp_offset s
    let s := emitOp .Jne s
    .ok { s with vars := insertVar var_name ⟨VarType.int, false⟩ s.vars }

/-- Rust `Parser::parse_loop`. -/
def parse_loop (fuel : Nat) (s : PState) : Except DesParseError PState :=
  match fuel with
  | 0 => .error (perr s fuelMsg)
  | fuel + 1 => do
    let s := advanceP s -- LOOP
    let s ← expectT Token.LBracket s
    let s ← parse_math_expr s
    let s ← expectT Token.RBracket s
    let loop_top := current_offset s
    let s := emitOp .Dec s
    let s ← expectT Token.LBrace s
    let s ← parse_block fuel s
    let s ← expectT Token.RBrace s
    let s := emitOp .Copy s
    let s := emit_push_int 0 s
    let s := emitOp .Cmp s
    let jmp_offset : Int := (loop_top : Int) - (current_offset s : Int) - 1
    let s := emit_push_int jmp_offset s
    let s := emitOp .Jg s
    .ok (emitOp .Pop s)

/-- Rust `Parser::parse_switch`.  The break-target patching writes
`end_offset - stored` into each recorded break push, like `patch_jump`
but with the offset fixed before the loop. -/
def parse_switch (fuel : Nat) (s : PState) : Except DesParseError PState :=
  match fuel with
  | 0 => .error (perr s fuelMsg)
  | fuel + 1 => do
    let s := advanceP s -- SWITCH
    let s ← expectT Token.LBracket s
    let s ← parse_math_expr s
    let s ← expectT Token.RBracket s
    -- jump to the case-checking section
    let check_jmp_idx := current_offset s
    let s := emit_push_int ((check_jmp_idx : Int) + 1) s
    let s := emitOp .Jmp s
    let s ← expectT Token.LBrace s
    let (case_addresses, default_address, break_targets, s) ←
      parse_switch_cases fuel [] none [] s
    -- now emit the case-checking code
    let s := patch_jump check_jmp_idx s
    let s := case_addresses.foldl (fun s vb =>
      let s := emitOp .Copy s
      let s := emit_push_int vb.1 s
      let s := emitOp .Cmp s
      let off : Int := (vb.2 : Int) - (current_offset s : Int) - 1
      emitOp .Je (emit_push_int off s)) s
    let s :=
      match default_address with
      | some addr =>
        let off : Int := (addr : Int) - (current_offset s : Int) - 1
        emitOp .Jmp (emit_push_int off s)
      | none => s
    -- pop the switch value
    let s := emitOp .Pop s
    -- patch all break targets to here
    let end_offset : Int := current_offset s
    let s := break_targets.foldl (fun s idx =>
      match s.opcodes.get? idx with
      | some op =>
        match op.operand with
        | some (SpOperand.int v) =>
          { s with opcodes := s.opcodes.set idx ⟨op.opcode, some (.int (end_offset - v))⟩ }
        | _ => s
      | none => s) s
    .ok s

/-- The CASE/DEFAULT collection loop inside `Parser::parse_switch`,
accumulating case addresses, the default address and break pushes. -/
def parse_switch_cases (fuel : Nat) (cases : List (Int × Nat))
    (default_address : Option Nat) (break_targets : List Nat) (s : PState) :
    Except DesParseError (List (Int × Nat) × Option Nat × List Nat × PState) :=
  match fuel with
  | 0 => .error (perr s fuelMsg)
  | fuel + 1 =>
    match peekT s with
    | .kw .Case => do
      let s := advanceP s
      let (val, s) ← parse_integer s
      let s ← expectT Token.Colon s
      let addr := current_offset s
      let (break_targets, s) ← parse_case_body fuel break_targets s
      parse_switch_cases fuel (cases ++ [(val, addr)]) default_address break_targets s
    | .kw .Default => do
      let s := advanceP s
      let s ← expectT Token.Colon s
      let addr := current_offset s
      let (break_targets, s) ← parse_case_body fuel break_targets s
      parse_switch_cases fuel cases (some addr) break_targets s
    | .kw .RBrace => .ok (cases, default_address, break_targets, advanceP s)
    | _ => .error (perr s (lstr "expected CASE, DEFAULT, or closing brace"))

/-- Rust `Parser::parse_case_body`: statements (or break jumps) up to the
next CASE, DEFAULT or closing brace. -/
def parse_case_body (fuel : Nat) (break_targets : List Nat) (s : PState) :
    Except DesParseError (List Nat × PState) :=
  match fuel with
  | 0 => .error (perr s fuelMsg)
  | fuel + 1 =>
    match peekT s with
    | .kw .Case | .kw .Default | .kw .RBrace => .ok (break_targets, s)
    | .kw .Break =>
      let s := advanceP s
      let idx := current_offset s
      let s := emit_push_int ((idx : Int) + 1) s
      let s := emitOp .Jmp s
      parse_case_body fuel (break_targets ++ [idx]) s
    | _ =>
      let pctAndState := try_percent_pfx s
      match pctAndState.1 with
      | some pv => do
        let s ← expectT Token.Colon pctAndState.2
        let s ← parse_pct_statement fuel pv s
        parse_case_body fuel break_targets s
      | none => do
        let s ← parse_statement fuel pctAndState.2
        parse_case_body fuel break_targets s

/-- The top-level loop of `Parser::parse`: level headers flush the level
in progress; statements are allowed at any point, including before any
header. -/
def parseTopLoop (fuel : Nat) (s : PState) : Except DesParseError PState :=
  match fuel with
  | 0 => .error (perr s fuelMsg)
  | fuel + 1 =>
    if peekT s = Token.Eof then .ok s
    else
      let pctAndState := try_percent_pfx s
      do
        let s ← (match pctAndState.1 with
          | some _ => expectT Token.Colon pctAndState.2
          | none => Except.ok pctAndState.2)
        match peekT s with
        | .kw .Maze => do
          let s ← parse_maze s
          parseTopLoop fuel s
        | .kw .Level => do
          let s ← parse_level_def s
          parseTopLoop fuel s
        | .kw .Eof => .ok s
        | _ =>
          match pctAndState.1 with
          | some pv => do
            let s ← parse_pct_statement fuel pv s
            parseTopLoop fuel s
          | none => do
            let s ← parse_statement fuel s
            parseTopLoop fuel s

end

/-- Rust `Parser::parse` / `parse_des`: run the top-level loop, then seal
any in-progress level.  The fuel is generous; each unit of nesting or
iteration consumes at least one token, so this bound is never reached. -/
def parse_des (tokens : List (Located Token)) : Except DesParseError DesFile := do
  let s0 : PState := ⟨tokens, 0, [], [], 0, [], [], 1⟩
  let s ← parseTopLoop (tokens.length * 4 + 4) s0
  let s := finish_level s
  .ok ⟨s.levels⟩

/-- Outcome of the full source-to-bytecode pipeline (`parse_des_file`). -/
inductive CompileResult where
  | ok (des : DesFile)
  | lexErr (line col : Nat) (msg : List Char)
  | parseErr (line : Nat) (msg : List Char)
  | panicked (msg : List Char)
deriving DecidableEq, Repr

/-- Rust `parse_des_file`: lex then parse. -/
def parse_des_file (input : List Char) : CompileResult :=
  match lex input with
  | .ok toks =>
    match parse_des toks with
    | .ok des => .ok des
    | .error e => .parseErr e.line e.msg
  | .err l c m => .lexErr l c m
  | .panicked m => .panicked m

/-! ## Operand unpacking, from `lev_reader.rs`

The bitwise operations on the packed i64 are expressed through its
unsigned 64-bit pattern `toU64`: for any i64 value `p` with pattern `u`,
`p & 0xFF = u % 256`, `(p >> k) & m = (u / 2 ^ k) % (m + 1)` for the
byte/halfword masks used here (Rust `>>` on i64 is an arithmetic shift,
i.e. flooring division, and the masks discard the sign bits), and
`p & (1 <<< 24) != 0` is bit 24 of `u`. -/

/-- Bit that marks a coord as random (`SP_COORD_IS_RANDOM`). -/
def SP_COORD_IS_RANDOM : Int := 0x01000000

/-- Rust `unpack_coord`. -/
def unpack_coord (packed : Int) : SpOperand :=
  let u := toU64 packed
  if (u / 2 ^ 24) % 2 ≠ 0 then
    -- random coord: the low 8 bits carry the humidity flags
    SpOperand.coord (-1) (-1) true (u % 256)
  else
    SpOperand.coord (toI16 (u % 256)) (toI16 ((u / 2 ^ 16) % 256)) false 0

/-- Rust `unpack_region`. -/
def unpack_region (packed : Int) : SpOperand :=
  let u := toU64 packed
  SpOperand.region (toI16 (u % 256)) (toI16 ((u / 2 ^ 8) % 256))
    (toI16 ((u / 2 ^ 16) % 256)) (toI16 ((u / 2 ^ 24) % 256))

/-- Rust `unpack_mapchar`. -/
def unpack_mapchar (packed : Int) : SpOperand :=
  let u := toU64 packed
  SpOperand.mapchar (toI16 (u % 256)) (toI16 ((u / 2 ^ 8) % 65536 - 10))

/-- Rust `unpack_monst`. -/
def unpack_monst (packed : Int) : SpOperand :=
  let u := toU64 packed
  SpOperand.monst (toI16 (u % 256)) (toI16 ((u / 2 ^ 8) % 65536 - 10))

/-- Rust `unpack_obj`. -/
def unpack_obj (packed : Int) : SpOperand :=
  let u := toU64 packed
  SpOperand.obj (toI16 (u % 256)) (toI16 ((u / 2 ^ 8) % 65536 - 10))

/-! ## Operand packing, modelled from the spec

The packers live on the serialization side, which is produced outside
these sources; each definition below is modelled from the spec's §4.4
layout table (bits laid out little-endian inside a 64-bit word, with the
`+10` bias on id/lit fields masked to 16 bits so that negative sentinels
survive unsigned transport). -/

/-- Modelled from the spec: concrete-coord packing, bits 0-7 = x,
bits 16-23 = y (C macro `SP_COORD_PACK`). -/
def SP_COORD_PACK (x y : Int) : Int := x % 256 + 2 ^ 16 * (y % 256)

/-- Modelled from the spec: random-coord packing, bit 24 set and the
low 8 bits carrying the humidity flags (C macro `SP_COORD_PACK_RANDOM`). -/
def SP_COORD_PACK_RANDOM (flags : Int) : Int := 2 ^ 24 + flags % 256

/-- Modelled from the spec: region packing, four 8-bit fields
(C macro `SP_REGION_PACK`). -/
def SP_REGION_PACK (x1 y1 x2 y2 : Int) : Int :=
  x1 % 256 + 2 ^ 8 * (y1 % 256) + 2 ^ 16 * (x2 % 256) + 2 ^ 24 * (y2 % 256)

/-- Modelled from the spec: map-char packing, bits 0-7 = type and
bits 8-23 = lit+10 (C macro `SP_MAPCHAR_PACK`). -/
def SP_MAPCHAR_PACK (typ lit : Int) : Int :=
  typ % 256 + 2 ^ 8 * ((lit + 10) % 65536)

/-- Modelled from the spec: monster packing, bits 0-7 = class and
bits 8-23 = id+10 (C macro `SP_MONST_PACK`). -/
def SP_MONST_PACK (cls id : Int) : Int :=
  cls % 256 + 2 ^ 8 * ((id + 10) % 65536)

/-- Modelled from the spec: object packing, same shape as monsters
(C macro `SP_OBJ_PACK`). -/
def SP_OBJ_PACK (cls id : Int) : Int :=
  cls % 256 + 2 ^ 8 * ((id + 10) % 65536)
/-! ## Shorthand for opcode records used in the theorem statements -/

/-- Push of an integer operand. -/
def opI (n : Int) : SpLevOpcode := ⟨.Push, some (.int n)⟩

/-- Push of a string operand. -/
def opS (s : String) : SpLevOpcode := ⟨.Push, some (.str s.data)⟩

/-- Push of a variable operand. -/
def opV (s : String) : SpLevOpcode := ⟨.Push, some (.var s.data)⟩

/-- A bare opcode record. -/
def op0 (o : SpOpcode) : SpLevOpcode := ⟨o, none⟩

/-- Initial parser state over a token list (`Parser::new`). -/
def pInit (toks : List (Located Token)) : PState := ⟨toks, 0, [], [], 0, [], [], 1⟩

/-! ## Helper lemmas -/

theorem wmcAux {p : Prop} [Decidable p] {a b : Int}
    (ha : a = 127 ∨ (0 ≤ a ∧ a ≤ 36)) (hb : b = 127 ∨ (0 ≤ b ∧ b ≤ 36)) :
    (if p then a else b) = 127 ∨ (0 ≤ (if p then a else b) ∧ (if p then a else b) ≤ 36) := by
  split <;> assumption

set_option maxHeartbeats 1000000 in
theorem what_map_char_cases (c : Char) :
    what_map_char c = 127 ∨ (0 ≤ what_map_char c ∧ what_map_char c ≤ 36) := by
  delta what_map_char INVALID_TYPE MAX_TYPE
  repeat (apply wmcAux)
  all_goals omega

theorem what_map_char_ne_neg_one (c : Char) : what_map_char c ≠ -1 := by
  rcases what_map_char_cases c with h | h <;> omega

theorem convByte_bounds (c : Char) : 1 ≤ convByte c ∧ convByte c ≤ 37 := by
  have h := what_map_char_cases c
  simp only [convByte, toU8, INVALID_TYPE]
  rcases h with h | h
  · simp only [h, if_pos]
    norm_num
  · rw [if_neg (by omega : ¬ what_map_char c = 127)]
    have hm : what_map_char c % 256 = what_map_char c := by omega
    rw [hm]
    omega

theorem splitOnChar_ne_nil (sep : Char) (l : List Char) : splitOnChar sep l ≠ [] := by
  induction l with
  | nil => simp [splitOnChar]
  | cons c cs ih =>
    simp only [splitOnChar]
    rcases h : splitOnChar sep cs with _ | ⟨r, rs⟩
    · simp
    · dsimp only
      split_ifs <;> simp

theorem splitOnChar_mem (sep : Char) (l : List Char) :
    ∀ r ∈ splitOnChar sep l, ∀ c ∈ r, c ∈ l := by
  induction l with
  | nil =>
    intro r hr c hc
    simp only [splitOnChar, List.mem_singleton] at hr
    subst hr
    simp at hc
  | cons x xs ih =>
    intro r hr c hc
    simp only [splitOnChar] at hr
    rcases h : splitOnChar sep xs with _ | ⟨r0, rs⟩
    · exact absurd h (splitOnChar_ne_nil sep xs)
    · rw [h] at hr
      dsimp only at hr
      by_cases hsep : x = sep
      · rw [if_pos hsep] at hr
        rcases List.mem_cons.mp hr with rfl | hr
        · simp at hc
        · have : r ∈ splitOnChar sep xs := by rw [h]; exact hr
          exact List.mem_cons_of_mem x (ih r this c hc)
      · rw [if_neg hsep] at hr
        rcases List.mem_cons.mp hr with rfl | hr
        · rcases List.mem_cons.mp hc with rfl | hc
          · exact List.mem_cons_self c xs
          · have : r0 ∈ splitOnChar sep xs := by rw [h]; exact List.mem_cons_self r0 rs
            exact List.mem_cons_of_mem x (ih r0 this c hc)
        · have : r ∈ splitOnChar sep xs := by rw [h]; exact List.mem_cons_of_mem r0 hr
          exact List.mem_cons_of_mem x (ih r this c hc)

theorem le_foldr_max (xs : List Nat) : ∀ x ∈ xs, x ≤ xs.foldr Nat.max 0 := by
  induction xs with
  | nil => simp
  | cons a as ih =>
    intro x hx
    rcases List.mem_cons.mp hx with rfl | hx
    · exact Nat.le_max_left _ _
    · exact le_trans (ih x hx) (Nat.le_max_right _ _)

theorem rustByteLen_eq_length {l : List Char} (h : ∀ c ∈ l, c.utf8Size = 1) :
    rustByteLen l = l.length := by
  induction l with
  | nil => rfl
  | cons c cs ih =>
    have hc := h c (List.mem_cons_self c cs)
    have ihx := ih (fun x hx => h x (List.mem_cons_of_mem c hx))
    simp only [rustByteLen, List.map_cons, List.sum_cons, List.length_cons] at *
    omega

theorem flatMap_length_uniform {α β : Type} (f : α → List β) (w : Nat) :
    ∀ L : List α, (∀ a ∈ L, (f a).length = w) → (L.flatMap f).length = L.length * w := by
  intro L h
  induction L with
  | nil => simp
  | cons a as ih =>
    simp only [List.flatMap_cons, List.length_append, List.length_cons]
    rw [h a (List.mem_cons_self a as), ih (fun x hx => h x (List.mem_cons_of_mem a hx))]
    ring

theorem flatMap_drop_take_uniform {α β : Type} (f : α → List β) (w : Nat) (d : α) :
    ∀ (L : List α) (i : Nat), (∀ a ∈ L, (f a).length = w) → i < L.length →
      ((L.flatMap f).drop (i * w)).take w = f (L.getD i d) := by
  intro L
  induction L with
  | nil => intro i _ hi; simp at hi
  | cons a as ih =>
    intro i h hi
    match i with
    | 0 =>
      simp only [Nat.zero_mul, List.drop_zero, List.flatMap_cons, List.getD_cons_zero]
      exact List.take_left' (h a (List.mem_cons_self a as))
    | i + 1 =>
      have hw : (f a).length = w := h a (List.mem_cons_self a as)
      have hstep : (i + 1) * w = w + i * w := by ring
      simp only [List.flatMap_cons, List.getD_cons_succ, hstep]
      rw [← List.drop_drop, List.drop_left' hw]
      exact ih i (fun x hx => h x (List.mem_cons_of_mem a hx)) (Nat.lt_of_succ_lt_succ hi)

theorem charOfNat_toNat : ∀ b < 38, (Char.ofNat b).toNat = b := by decide

/-! ## Claim theorems -/

/-- The expected opcode stream of `FOR $i = 1 TO 3 { EXIT }` compiled
after a bare `LEVEL: "l"` header (whose two flag opcodes open the list). -/
def forExpected : List SpLevOpcode :=
  [opI 0, op0 .LevelFlags,
   opI 1, opI 3,
   opI 0, opS "$i end", op0 .VarInit,
   opI 0, opS "$i", op0 .VarInit,
   opV "$i end", opV "$i", op0 .MathSub, op0 .MathSign,
   opI 0, opS "$i step", op0 .VarInit,
   op0 .Exit,
   opV "$i", opV "$i end", op0 .Cmp,
   opV "$i step", opV "$i", op0 .MathAdd,
   opI 0, opS "$i", op0 .VarInit,
   opI (-11), op0 .Jne]

/-- C4: for every LEVEL definition the mandatory-flags production runs
right after the level name: with no FLAGS statement it emits Push(Int 0)
then LevelFlags (shown for an arbitrary prior opcode accumulator and an
arbitrary level name), with a FLAGS statement it emits the user-supplied
flag bits; and compiling `LEVEL: "plain"` with no FLAGS line produces a
level named "plain" whose opcodes are exactly Push(Int 0); LevelFlags. -/
theorem C4_level_mandatory_flags :
    (∀ (ops : List SpLevOpcode) (name : List Char) (l1 c1 l2 c2 l3 c3 l4 c4 : Nat),
      parse_level_def
        ⟨[⟨Token.Level, l1, c1⟩, ⟨Token.Colon, l2, c2⟩, ⟨Token.String name, l3, c3⟩,
          ⟨Token.Eof, l4, c4⟩], 0, ops, [], 0, [], [], 1⟩ =
      .ok ⟨[⟨Token.Level, l1, c1⟩, ⟨Token.Colon, l2, c2⟩, ⟨Token.String name, l3, c3⟩,
          ⟨Token.Eof, l4, c4⟩], 3, ops ++ [opI 0] ++ [op0 .LevelFlags], [], 0, [], name, 1⟩)
    ∧ parse_des_file (lstr "LEVEL: \"plain\"\n") =
        .ok ⟨[⟨lstr "plain", [opI 0, op0 .LevelFlags]⟩]⟩
    ∧ parse_des_file (lstr "LEVEL: \"l\"\nFLAGS: noteleport, mazelevel\n") =
        .ok ⟨[⟨lstr "l", [opI 33, op0 .LevelFlags]⟩]⟩ := by
  refine ⟨?_, by decide, by decide⟩
  intro ops name l1 c1 l2 c2 l3 c3 l4 c4
  rfl

/-- C10: statements before the first MAZE or LEVEL header are not a parse
error: sealing a level is a no-op while no level is open (so accumulated
opcodes are retained and become the leading opcodes of the first level
defined afterwards), and a file with statements but no level header
compiles to an empty level list. -/
theorem C10_preheader_statements :
    (∀ s : PState, s.level_name = [] → finish_level s = s)
    ∧ parse_des_file (lstr "MESSAGE: \"x\"\nLEVEL: \"a\"\n") =
        .ok ⟨[⟨lstr "a", [opS "x", op0 .Message, opI 0, op0 .LevelFlags]⟩]⟩
    ∧ parse_des_file (lstr "MESSAGE: \"x\"\n") = .ok ⟨[]⟩ := by
  refine ⟨?_, by decide, by decide⟩
  intro s h
  unfold finish_level
  rw [h]
  simp

/-- Witness for C10: sealing with no open level leaves the state as is. -/
theorem C10_preheader_statements_witness :
    finish_level (pInit []) = pInit [] :=
  C10_preheader_statements.1 (pInit []) rfl

/-- C5: the conditional jump emitted for a comparison in an IF condition
is the negation of the source operator (== gives Jne, != gives Je,
< gives Jge, <= gives Jg, > gives Jle, >= gives Jl), so control falls
through on success; compiling `IF [1 < 2] { EXIT }` emits Jge. -/
theorem C5_comparison_negation :
    (∀ s : PState,
      (peekT s = Token.CompareEq → parse_comparison_op s = .ok (.Jne, advanceP s)) ∧
      (peekT s = Token.CompareNe → parse_comparison_op s = .ok (.Je, advanceP s)) ∧
      (peekT s = Token.CompareLt → parse_comparison_op s = .ok (.Jge, advanceP s)) ∧
      (peekT s = Token.CompareLe → parse_comparison_op s = .ok (.Jg, advanceP s)) ∧
      (peekT s = Token.CompareGt → parse_comparison_op s = .ok (.Jle, advanceP s)) ∧
      (peekT s = Token.CompareGe → parse_comparison_op s = .ok (.Jl, advanceP s)))
    ∧ parse_des_file (lstr "LEVEL: \"l\"\nIF [1 < 2] { EXIT }\n") =
        .ok ⟨[⟨lstr "l",
          [opI 0, op0 .LevelFlags, opI 1, opI 2, op0 .Cmp, opI 2, op0 .Jge,
           op0 .Exit]⟩]⟩ := by
  refine ⟨?_, by decide⟩
  intro s
  refine ⟨?_, ?_, ?_, ?_, ?_, ?_⟩ <;> (intro h; unfold parse_comparison_op; rw [h])

/-- Witness for C5: the six mappings at concrete one-token states. -/
theorem C5_comparison_negation_witness :
    parse_comparison_op (pInit [⟨Token.CompareEq, 1, 1⟩]) =
      .ok (.Jne, advanceP (pInit [⟨Token.CompareEq, 1, 1⟩])) ∧
    parse_comparison_op (pInit [⟨Token.CompareNe, 1, 1⟩]) =
      .ok (.Je, advanceP (pInit [⟨Token.CompareNe, 1, 1⟩])) ∧
    parse_comparison_op (pInit [⟨Token.CompareLt, 1, 1⟩]) =
      .ok (.Jge, advanceP (pInit [⟨Token.CompareLt, 1, 1⟩])) ∧
    parse_comparison_op (pInit [⟨Token.CompareLe, 1, 1⟩]) =
      .ok (.Jg, advanceP (pInit [⟨Token.CompareLe, 1, 1⟩])) ∧
    parse_comparison_op (pInit [⟨Token.CompareGt, 1, 1⟩]) =
      .ok (.Jle, advanceP (pInit [⟨Token.CompareGt, 1, 1⟩])) ∧
    parse_comparison_op (pInit [⟨Token.CompareGe, 1, 1⟩]) =
      .ok (.Jl, advanceP (pInit [⟨Token.CompareGe, 1, 1⟩])) :=
  ⟨(C5_comparison_negation.1 _).1 rfl,
   (C5_comparison_negation.1 _).2.1 rfl,
   (C5_comparison_negation.1 _).2.2.1 rfl,
   (C5_comparison_negation.1 _).2.2.2.1 rfl,
   (C5_comparison_negation.1 _).2.2.2.2.1 rfl,
   (C5_comparison_negation.1 _).2.2.2.2.2 rfl⟩

/-- C6: `FOR $i = 1 TO 3 { EXIT }` stores the loop variable, its end
bound and its step (the step via MathSub then MathSign on end and start),
emits the body, and ends with a backward Jne whose preceding push is
negative and, added to the jump opcode's own index, reaches the first
opcode of the loop body. -/
theorem C6_for_loop :
    parse_des_file (lstr "LEVEL: \"l\"\nFOR $i = 1 TO 3 { EXIT }\n") =
      .ok ⟨[⟨lstr "l", forExpected⟩]⟩
    ∧ forExpected.get? 5 = some (opS "$i end")
    ∧ forExpected.get? 8 = some (opS "$i")
    ∧ forExpected.get? 15 = some (opS "$i step")
    ∧ forExpected.get? 12 = some (op0 .MathSub)
    ∧ forExpected.get? 13 = some (op0 .MathSign)
    ∧ forExpected.get? 17 = some (op0 .Exit)
    ∧ forExpected.get? 27 = some (opI (-11))
    ∧ forExpected.get? 28 = some (op0 .Jne)
    ∧ ((-11 : Int) < 0)
    ∧ ((28 : Int) + (-11) = 17) := by decide

/-- C7: `MONSTER: random, random` emits Push(Monst class=255 id=-11),
then a Push of a Coord with the random flag set, the modifier End
sentinel push (16), a count push of 0, and the Monster opcode. -/
theorem C7_random_monster :
    parse_des_file (lstr "LEVEL: \"l\"\nMONSTER: random, random\n") =
      .ok ⟨[⟨lstr "l",
        [opI 0, op0 .LevelFlags,
         ⟨.Push, some (.monst 255 (-11))⟩,
         ⟨.Push, some (.coord (-1) (-1) true 0)⟩,
         opI 16, opI 0, op0 .Monster]⟩]⟩
    ∧ SpMonVarFlagVal.End = 16 := by decide

/-- C9: the lexer's failure modes at the claimed inputs: the four error
conditions produce lexer errors with their fixed messages, unrecognized
characters are silently skipped — but an integer literal that overflows
i64 makes the Rust code panic in `.expect("digits")` instead of lexing
successfully, diverging from the claim. -/
theorem C9_lex_outcomes :
    lex (lstr "99999999999999999999") = .panicked (lstr "digits")
    ∧ lex (lstr "\"abc") = .err 1 1 (lstr "unterminated string")
    ∧ lex (lstr "'a") = .err 1 1 (lstr "unterminated char literal")
    ∧ lex (lstr "!x") = .err 1 1 exclMsg
    ∧ lex (lstr "MAP\nfoo") = .err 1 1 (lstr "unterminated MAP block")
    ∧ lex (lstr "@ ;") = .ok [⟨Token.Eof, 1, 4⟩] := by decide

/-- Rewriting characterization of `emit_percent_condition`: it appends
the five condition opcodes, then a placeholder push whose initial value
is its own index plus one (the index of the following Jg), and the Jg. -/
theorem emit_percent_condition_eq (pct : Int) (s : PState) :
    emit_percent_condition pct s =
      (s.opcodes.length + 5,
       { s with opcodes := s.opcodes ++
          [opI pct, opI 100, op0 .Rn2, opI 0, op0 .Cmp,
           opI ((s.opcodes.length : Int) + 6), op0 .Jg] }) := by
  cases s
  simp only [emit_percent_condition, emit_push_int, emitOp, current_offset,
    opI, op0, List.append_assoc, List.cons_append, List.nil_append,
    List.length_append, List.length_cons, List.length_nil, Prod.mk.injEq,
    PState.mk.injEq]
  norm_num
  omega

/-- The tokens of a `MAZE: "name", 'c'` header line followed by end of
input, at the positions the lexer assigns. -/
def mazeToks (name : List Char) (c : Char) : List (Located Token) :=
  [⟨Token.Maze, 1, 1⟩, ⟨Token.Colon, 1, 5⟩, ⟨Token.String name, 1, 7⟩,
   ⟨Token.Comma, 1, 10⟩, ⟨Token.Char c, 1, 12⟩, ⟨Token.Eof, 2, 1⟩]

/-- Characterization of `parse_maze` on a character-literal fill: the
second InitLevel push carries `what_map_char` applied to the character
reinterpretation of the already-converted `what_map_char` value. -/
theorem parse_maze_fill_eq (ops : List SpLevOpcode) (name : List Char) (c : Char) :
    parse_maze ⟨mazeToks name c, 0, ops, [], 0, [], [], 1⟩ =
      .ok ⟨mazeToks name c, 5,
        ops ++ [opI 1, opI (what_map_char (Char.ofNat (toU8 (what_map_char c)))),
          opI 0, opI 0, opI 0, opI 0, opI 0, opI 0, op0 .InitLevel,
          opI 32, op0 .LevelFlags, opI 0, op0 .LevelFlags],
        [], 0, [], name, 1⟩ := by
  have hne := what_map_char_ne_neg_one c
  simp only [parse_maze, mazeToks, finish_level, advanceP, expectT, peekT, parse_string,
    parse_mandatory_flags, parse_flags, emit_push_int, emitOp, current_offset,
    current_line, perr, bind, Except.bind]
  norm_num
  rw [if_neg hne]
  simp [opI, op0, List.append_assoc, List.range_succ, LevelFlagsBits.MAZELEVEL]

/-- The state of the top-level parse loop of `[75%]: MESSAGE: "hi"`,
right after the Percent and Colon tokens have been consumed. -/
def c1State : PState :=
  ⟨[⟨Token.Percent 75, 1, 1⟩, ⟨Token.Colon, 1, 6⟩, ⟨Token.Message, 1, 8⟩,
    ⟨Token.Colon, 1, 15⟩, ⟨Token.String (lstr "hi"), 1, 17⟩, ⟨Token.Eof, 2, 1⟩],
   2, [], [], 0, [], [], 1⟩

/-- C1 counterexample: in `[75%]: MESSAGE: "hi"`, the Jg placeholder push
lands at index 5 of the opcode list but initially stores 6 (its own index
plus one), not its own index; consequently the back-patched operand is
3 = 9 - 6, not (offset after the Message body) - (the push's own index)
= 9 - 5 = 4 as the claim states. -/
theorem C1_counterexample :
    ((emit_percent_condition 75 c1State).1 = 5
      ∧ (emit_percent_condition 75 c1State).2.opcodes.get? 5 = some (opI 6)
      ∧ (6 : Int) ≠ 5)
    ∧ (parse_pct_statement 8 75 c1State =
        .ok ⟨c1State.tokens, 5,
          [opI 75, opI 100, op0 .Rn2, opI 0, op0 .Cmp, opI 3, op0 .Jg,
           opS "hi", op0 .Message], [], 0, [], [], 1⟩
      ∧ (3 : Int) ≠ 9 - 5) := by decide

set_option maxHeartbeats 4000000 in
/-- C1 as amended: across the back-patched control-flow constructs the
placeholder push initially stores its own index plus one (the index of
the following jump opcode) — shown in general for the percent condition
and for `patch_jump`'s target-minus-stored rewrite — so every final jump
operand equals (target offset − (placeholder index + 1)); instantiated
on the percent, IF/ELSE, SWITCH and FOR scenarios, the FOR loop emitting
its backward operand directly with the same value. -/
theorem C1_jump_convention :
    (∀ (pct : Int) (s : PState),
      emit_percent_condition pct s =
        (s.opcodes.length + 5,
         { s with opcodes := s.opcodes ++
            [opI pct, opI 100, op0 .Rn2, opI 0, op0 .Cmp,
             opI ((s.opcodes.length : Int) + 6), op0 .Jg] }))
    ∧ (∀ (s : PState) (idx : Nat) (o : SpOpcode) (v : Int),
        s.opcodes.get? idx = some ⟨o, some (.int v)⟩ →
        (patch_jump idx s).opcodes =
          s.opcodes.set idx ⟨o, some (.int ((s.opcodes.length : Int) - v))⟩)
    ∧ (parse_des_file (lstr "LEVEL: \"l\"\n[75%]: MESSAGE: \"hi\"\n") =
        .ok ⟨[⟨lstr "l", [opI 0, op0 .LevelFlags, opI 75, opI 100, op0 .Rn2, opI 0,
          op0 .Cmp, opI 3, op0 .Jg, opS "hi", op0 .Message]⟩]⟩
      ∧ (3 : Int) = 11 - (7 + 1))
    ∧ (parse_des_file (lstr "LEVEL: \"l\"\nIF [1 == 2] { EXIT } ELSE { EXIT }\n") =
        .ok ⟨[⟨lstr "l", [opI 0, op0 .LevelFlags, opI 1, opI 2, op0 .Cmp, opI 4,
          op0 .Jne, op0 .Exit, opI 2, op0 .Jmp, op0 .Exit]⟩]⟩
      ∧ (4 : Int) = 10 - (5 + 1) ∧ (2 : Int) = 11 - (8 + 1))
    ∧ (parse_des_file (lstr "LEVEL: \"l\"\nSWITCH [1] { CASE 1: EXIT BREAK DEFAULT: EXIT }\n") =
        .ok ⟨[⟨lstr "l", [opI 0, op0 .LevelFlags, opI 1, opI 5, op0 .Jmp, op0 .Exit,
          opI 10, op0 .Jmp, op0 .Exit, op0 .Copy, opI 1, op0 .Cmp, opI (-8), op0 .Je,
          opI (-7), op0 .Jmp, op0 .Pop]⟩]⟩
      ∧ (5 : Int) = 9 - (3 + 1) ∧ (10 : Int) = 17 - (6 + 1)
      ∧ (-8 : Int) = 5 - (12 + 1) ∧ (-7 : Int) = 8 - (14 + 1))
    ∧ (parse_des_file (lstr "LEVEL: \"l\"\nFOR $i = 1 TO 3 { EXIT }\n") =
        .ok ⟨[⟨lstr "l", forExpected⟩]⟩
      ∧ forExpected.get? 27 = some (opI (-11)) ∧ (-11 : Int) = 17 - (27 + 1)) := by
  refine ⟨fun pct s => emit_percent_condition_eq pct s, ?_, by decide, by decide,
    by decide, by decide⟩
  intro s idx o v h
  simp only [patch_jump, current_offset, h]

/-- Witness for C1's amended statement: `patch_jump` applied at a state
holding a single self-referential-style push. -/
theorem C1_jump_convention_witness :
    (patch_jump 0 ⟨[], 0, [opI 5], [], 0, [], [], 1⟩).opcodes =
      ([opI 5] : List SpLevOpcode).set 0 ⟨SpOpcode.Push, some (.int ((1 : Int) - 5))⟩ :=
  C1_jump_convention.2.1 ⟨[], 0, [opI 5], [], 0, [], [], 1⟩ 0 SpOpcode.Push 5 rfl

/-- C3 counterexample: for `MAZE: "m", '.'` the emitted InitLevel
background push is 127 = INVALID_TYPE — neither STONE (0), nor STONE+1
(1), nor the once-converted terrain code 24 that ROOM would give — so the
unmapped second conversion does not yield STONE-derived output. -/
theorem C3_counterexample :
    parse_des_file (lstr "MAZE: \"m\", '.'\n") =
      .ok ⟨[⟨lstr "m", [opI 1, opI 127, opI 0, opI 0, opI 0, opI 0, opI 0, opI 0,
        op0 .InitLevel, opI 32, op0 .LevelFlags, opI 0, op0 .LevelFlags]⟩]⟩
    ∧ what_map_char '.' = 24
    ∧ (127 : Int) = INVALID_TYPE
    ∧ (127 : Int) ≠ 0 ∧ (127 : Int) ≠ 1 ∧ (127 : Int) ≠ 24 := by decide

/-- C3 as amended: the MAZE fill background is `what_map_char` applied to
the small-integer reinterpretation of the already-once-converted fill
character (the preserved double-conversion bug), shown for an arbitrary
fill character, name, and prior accumulator; when the reinterpreted
character is unmapped the emitted value is INVALID_TYPE = 127 (not a
STONE-derived value), as the `'.'` instance shows. -/
theorem C3_maze_double_conversion :
    (∀ (ops : List SpLevOpcode) (name : List Char) (c : Char),
      parse_maze ⟨mazeToks name c, 0, ops, [], 0, [], [], 1⟩ =
        .ok ⟨mazeToks name c, 5,
          ops ++ [opI 1, opI (what_map_char (Char.ofNat (toU8 (what_map_char c)))),
            opI 0, opI 0, opI 0, opI 0, opI 0, opI 0, op0 .InitLevel,
            opI 32, op0 .LevelFlags, opI 0, op0 .LevelFlags],
          [], 0, [], name, 1⟩)
    ∧ what_map_char (Char.ofNat (toU8 (what_map_char '.'))) = 127
    ∧ INVALID_TYPE = 127
    ∧ parse_des_file (lstr "MAZE: \"m\", '.'\n") =
        .ok ⟨[⟨lstr "m", [opI 1, opI 127, opI 0, opI 0, opI 0, opI 0, opI 0, opI 0,
          op0 .InitLevel, opI 32, op0 .LevelFlags, opI 0, op0 .LevelFlags]⟩]⟩ := by
  exact ⟨parse_maze_fill_eq, by decide, by decide, by decide⟩

/-- C8: packing each operand kind per the spec's bit layout and then
running the decoder's unpacker is the identity, for fields that fit the
layout: 8-bit coordinate/class/region fields, 16-bit biased id/lit
fields (any i16 value survives via the +10 bias and masking), and random
coords carried as x = y = -1 with 8-bit flags. -/
theorem C8_pack_unpack_roundtrip :
    (∀ x y : Int, 0 ≤ x → x ≤ 255 → 0 ≤ y → y ≤ 255 →
      unpack_coord (SP_COORD_PACK x y) = .coord x y false 0)
    ∧ (∀ fl : Int, 0 ≤ fl → fl ≤ 255 →
      unpack_coord (SP_COORD_PACK_RANDOM fl) = .coord (-1) (-1) true fl)
    ∧ (∀ x1 y1 x2 y2 : Int, 0 ≤ x1 → x1 ≤ 255 → 0 ≤ y1 → y1 ≤ 255 →
        0 ≤ x2 → x2 ≤ 255 → 0 ≤ y2 → y2 ≤ 255 →
      unpack_region (SP_REGION_PACK x1 y1 x2 y2) = .region x1 y1 x2 y2)
    ∧ (∀ typ lit : Int, 0 ≤ typ → typ ≤ 255 → -32768 ≤ lit → lit ≤ 32767 →
      unpack_mapchar (SP_MAPCHAR_PACK typ lit) = .mapchar typ lit)
    ∧ (∀ cls id : Int, 0 ≤ cls → cls ≤ 255 → -32768 ≤ id → id ≤ 32767 →
      unpack_monst (SP_MONST_PACK cls id) = .monst cls id)
    ∧ (∀ cls id : Int, 0 ≤ cls → cls ≤ 255 → -32768 ≤ id → id ≤ 32767 →
      unpack_obj (SP_OBJ_PACK cls id) = .obj cls id) := by
  refine ⟨?_, ?_, ?_, ?_, ?_, ?_⟩
  · intro x y hx0 hx hy0 hy
    simp only [unpack_coord, SP_COORD_PACK, toU64, toI16]
    rw [if_neg (by omega)]
    rw [SpOperand.coord.injEq]
    refine ⟨?_, ?_, rfl, rfl⟩ <;> (split_ifs <;> omega)
  · intro fl h0 h
    simp only [unpack_coord, SP_COORD_PACK_RANDOM, toU64]
    rw [if_pos (by omega)]
    rw [SpOperand.coord.injEq]
    refine ⟨rfl, rfl, rfl, by omega⟩
  · intro x1 y1 x2 y2 h1 h2 h3 h4 h5 h6 h7 h8
    simp only [unpack_region, SP_REGION_PACK, toU64, toI16]
    rw [SpOperand.region.injEq]
    refine ⟨?_, ?_, ?_, ?_⟩ <;> (split_ifs <;> omega)
  · intro typ lit h1 h2 h3 h4
    simp only [unpack_mapchar, SP_MAPCHAR_PACK, toU64, toI16]
    rw [SpOperand.mapchar.injEq]
    refine ⟨?_, ?_⟩ <;> (split_ifs <;> omega)
  · intro cls id h1 h2 h3 h4
    simp only [unpack_monst, SP_MONST_PACK, toU64, toI16]
    rw [SpOperand.monst.injEq]
    refine ⟨?_, ?_⟩ <;> (split_ifs <;> omega)
  · intro cls id h1 h2 h3 h4
    simp only [unpack_obj, SP_OBJ_PACK, toU64, toI16]
    rw [SpOperand.obj.injEq]
    refine ⟨?_, ?_⟩ <;> (split_ifs <;> omega)

/-- Witness for C8: the round trip at the operand values the compiler
actually emits — a concrete coord, a random coord with flags, a region,
a random map char (lit = -1), the random-monster sentinel (255, -11) and
a named-object id. -/
theorem C8_pack_unpack_roundtrip_witness :
    unpack_coord (SP_COORD_PACK 5 5) = .coord 5 5 false 0
    ∧ unpack_coord (SP_COORD_PACK_RANDOM 3) = .coord (-1) (-1) true 3
    ∧ unpack_region (SP_REGION_PACK 1 2 70 20) = .region 1 2 70 20
    ∧ unpack_mapchar (SP_MAPCHAR_PACK 24 (-1)) = .mapchar 24 (-1)
    ∧ unpack_monst (SP_MONST_PACK 255 (-11)) = .monst 255 (-11)
    ∧ unpack_obj (SP_OBJ_PACK 64 (-1)) = .obj 64 (-1) :=
  ⟨C8_pack_unpack_roundtrip.1 5 5 (by norm_num) (by norm_num) (by norm_num) (by norm_num),
   C8_pack_unpack_roundtrip.2.1 3 (by norm_num) (by norm_num),
   C8_pack_unpack_roundtrip.2.2.1 1 2 70 20 (by norm_num) (by norm_num) (by norm_num)
     (by norm_num) (by norm_num) (by norm_num) (by norm_num) (by norm_num),
   C8_pack_unpack_roundtrip.2.2.2.1 24 (-1) (by norm_num) (by norm_num) (by norm_num)
     (by norm_num),
   C8_pack_unpack_roundtrip.2.2.2.2.1 255 (-11) (by norm_num) (by norm_num) (by norm_num)
     (by norm_num),
   C8_pack_unpack_roundtrip.2.2.2.2.2 64 (-1) (by norm_num) (by norm_num) (by norm_num)
     (by norm_num)⟩

/-- The per-row converted-and-padded chunk of `scan_map`'s output, after
the byte-to-char conversion is pushed inside. -/
def scanRow (w : Nat) (row : List Char) : List Char :=
  row.map (fun c => Char.ofNat (convByte c)) ++
    List.replicate (w - rustByteLen row) (Char.ofNat 1)

theorem scan_map_data_eq (raw : List Char) :
    (scan_map raw).data =
      (splitOnChar '\n' (raw.filter (fun c => !c.isDigit))).flatMap
        (scanRow (scan_map raw).width) := by
  simp only [scan_map, List.map_flatMap]
  congr 1
  funext row
  simp [scanRow, List.map_replicate, Function.comp]

/-- C2 counterexample: `scan_map` pads rows by Rust byte length but
converts per character, so a raw block consisting of the single two-byte
character U+00E9 yields width 2 and height 1 with only one data byte:
the data length is not height times width. -/
theorem C2_counterexample :
    (Char.ofNat 233).utf8Size = 2
    ∧ (scan_map [Char.ofNat 233]).height = 1
    ∧ (scan_map [Char.ofNat 233]).width = 2
    ∧ (scan_map [Char.ofNat 233]).data.length = 1
    ∧ (scan_map [Char.ofNat 233]).data.length ≠
        (scan_map [Char.ofNat 233]).height * (scan_map [Char.ofNat 233]).width := by
  decide

/-- C2 as amended: for raw map blocks of single-byte (ASCII) characters,
`scan_map` returns data of exactly height × width bytes, every byte in
[1, 37] = [1, MAX_TYPE+1]; row i of the data is the row's characters
converted through `convByte` followed by right-padding with byte 1; and
the conversion is `what_map_char` plus one, with invalid characters
mapped to STONE+1 = 1. -/
theorem C2_scan_map (raw : List Char) (hascii : ∀ c ∈ raw, c.utf8Size = 1) :
    ((scan_map raw).data.length = (scan_map raw).height * (scan_map raw).width
    ∧ (∀ ch ∈ (scan_map raw).data, 1 ≤ ch.toNat ∧ ch.toNat ≤ 37)
    ∧ (∀ i, i < (scan_map raw).height →
        (((scan_map raw).data.drop (i * (scan_map raw).width)).take
            (scan_map raw).width =
          scanRow (scan_map raw).width
            ((splitOnChar '\n' (raw.filter (fun c => !c.isDigit))).getD i []))))
    ∧ (∀ c : Char, what_map_char c ≠ INVALID_TYPE →
        (convByte c : Int) = what_map_char c + 1)
    ∧ (∀ c : Char, what_map_char c = INVALID_TYPE → convByte c = 1) := by
  have hrows : ∀ r ∈ splitOnChar '\n' (raw.filter (fun c => !c.isDigit)),
      ∀ c ∈ r, c.utf8Size = 1 := by
    intro r hr c hc
    have := splitOnChar_mem '\n' (raw.filter (fun x => !x.isDigit)) r hr c hc
    exact hascii c (List.mem_of_mem_filter this)
  have hwidth : (scan_map raw).width =
      ((splitOnChar '\n' (raw.filter (fun c => !c.isDigit))).map rustByteLen).foldr
        Nat.max 0 := rfl
  have hheight : (scan_map raw).height =
      (splitOnChar '\n' (raw.filter (fun c => !c.isDigit))).length := rfl
  have huni : ∀ r ∈ splitOnChar '\n' (raw.filter (fun c => !c.isDigit)),
      (scanRow (scan_map raw).width r).length = (scan_map raw).width := by
    intro r hr
    have hle : rustByteLen r ≤ (scan_map raw).width := by
      rw [hwidth]
      exact le_foldr_max _ _ (List.mem_map_of_mem rustByteLen hr)
    have heq : rustByteLen r = r.length := rustByteLen_eq_length (hrows r hr)
    simp only [scanRow, List.length_append, List.length_map, List.length_replicate]
    omega
  refine ⟨⟨?_, ?_, ?_⟩, ?_, ?_⟩
  · rw [scan_map_data_eq, hheight]
    exact flatMap_length_uniform _ _ _ huni
  · intro ch hch
    rw [scan_map_data_eq] at hch
    rcases List.mem_flatMap.mp hch with ⟨row, hrow, hmem⟩
    rcases List.mem_append.mp hmem with hmem | hmem
    · rcases List.mem_map.mp hmem with ⟨c, _, rfl⟩
      have hb := convByte_bounds c
      rw [charOfNat_toNat (convByte c) (by omega)]
      exact hb
    · rw [List.eq_of_mem_replicate hmem]
      decide
  · intro i hi
    rw [scan_map_data_eq]
    exact flatMap_drop_take_uniform _ _ [] _ i huni (by rw [← hheight]; exact hi)
  · intro c hc
    rcases what_map_char_cases c with h | h
    · exact absurd h hc
    · simp only [convByte, toU8]
      rw [if_neg hc]
      have h36 : what_map_char c ≤ 36 := h.2
      have h0 : 0 ≤ what_map_char c := h.1
      omega
  · intro c hc
    simp [convByte, hc, toU8]

/-- Witness for C2's amended statement: the length identity at the
spec's own map-block scenario. -/
theorem C2_scan_map_witness :
    (scan_map (lstr ".|.|\n-+-+")).data.length =
      (scan_map (lstr ".|.|\n-+-+")).height * (scan_map (lstr ".|.|\n-+-+")).width :=
  (C2_scan_map (lstr ".|.|\n-+-+") (by decide)).1.1
